import Mathlib

/-!
# pom: the Pomodoro timer's session state machine and sand-timer renderer

A shallow embedding of `src/timer.go` together with the one third-party
component its behaviour rests on, the countdown of
`github.com/charmbracelet/bubbles/timer`.

Conventions of the embedding.

* `time.Duration` is an `Int` counting nanoseconds. Go keeps it in an `int64`;
  the counters and durations of this program would need 2^63 increments or a
  countdown of 292 years to wrap, and the index arithmetic of the sand timer a
  grid of 2^63 cells, so Go's `int` and `int64` are kept as mathematical
  integers. Where a statement needs a duration to be an `int64`, it says so.
* The countdown `timer.Model` follows the source of the bubbles library
  (`timer/timer.go`): `NewWithInterval`, `Running`, `Timedout`, `Update` and the
  commands `Start`, `Stop`, `tick` and `timedout`.
* `tea.Msg` is the closed sum `Msg` of the message kinds the timer reacts to
  plus one constructor for every other message.
* `tea.Cmd` is the list of messages the command delivers when the runtime
  executes it (`nil` is the empty list, `tea.Batch` is concatenation); the
  delay with which a message comes back is not part of the model.
* The package-level counter `lastID` of the timer library is passed explicitly:
  every function that creates a countdown takes the counter and returns it.
-/

namespace Pom

/-- Nanosecond count of a `time.Duration`. -/
abbrev Duration := Int

/-- One second, `time.Second`. -/
def Second : Duration := 1000000000

/-- One minute, `time.Minute`. -/
def Minute : Duration := 60 * Second

/-- Messages reaching `TimerModel.Update`. -/
inductive Msg where
  /-- A `tea.KeyMsg`, identified by the result of `msg.String()`. -/
  | key (s : String)
  /-- A `timer.TickMsg` with its fields `ID`, `Timeout` and `tag`. -/
  | tick (ID : Int) (Timeout : Bool) (tag : Int)
  /-- A `timer.TimeoutMsg` with its field `ID`. -/
  | timeout (ID : Int)
  /-- A `timer.StartStopMsg` with its fields `ID` and `running`. -/
  | startStop (ID : Int) (running : Bool)
  /-- Every other message (mouse, focus, ...). -/
  | other
  /-- A `tea.WindowSizeMsg` with its fields `Width` and `Height`. -/
  | windowSize (Width Height : Int)
  /-- The `tea.QuitMsg` the command `tea.Quit` delivers. -/
  | quit
  deriving DecidableEq, Repr

/-- Messages a `tea.Cmd` delivers once executed. -/
abbrev Cmd := List Msg

namespace timer

/-- The struct `timer.Model` of the bubbles library. -/
structure Model where
  Timeout : Duration
  Interval : Duration
  id : Int
  tag : Int
  running : Bool
  deriving DecidableEq, Repr

/-- Creates a countdown: `timer.NewWithInterval`; `nextID()` increments the
package counter and returns the new value. -/
def NewWithInterval (timeout interval : Duration) (lastID : Int) : Model × Int :=
  ({ Timeout := timeout, Interval := interval, running := true, id := lastID + 1, tag := 0 },
    lastID + 1)

/-- Whether the countdown has run out: `Model.Timedout`. -/
def Model.Timedout (m : Model) : Bool :=
  decide (m.Timeout ≤ 0)

/-- Whether the countdown is advancing: `Model.Running`. -/
def Model.Running (m : Model) : Bool :=
  if m.Timedout || !m.running then false else true

/-- The command of `Model.tick`: one `TickMsg` after `Interval`. -/
def Model.tick (m : Model) : Cmd :=
  [Msg.tick m.id m.Timedout m.tag]

/-- The command of `Model.timedout`: a `TimeoutMsg` once the countdown is out. -/
def Model.timedout (m : Model) : Cmd :=
  if !m.Timedout then [] else [Msg.timeout m.id]

/-- The command of `Model.Start`. -/
def Model.Start (m : Model) : Cmd :=
  [Msg.startStop m.id true]

/-- The command of `Model.Stop`. -/
def Model.Stop (m : Model) : Cmd :=
  [Msg.startStop m.id false]

/-- The library's `Model.Update`: a start/stop message addressed to this
countdown sets `running`; a tick addressed to a running countdown takes one
`Interval` off `Timeout`. -/
def Model.Update (m : Model) (msg : Msg) : Model × Cmd :=
  match msg with
  | Msg.startStop ID running =>
    if ID ≠ 0 ∧ ID ≠ m.id then (m, [])
    else
      let m := { m with running := running }
      (m, m.tick)
  | Msg.tick ID _ tag =>
    if !m.Running || (ID ≠ 0 ∧ ID ≠ m.id) then (m, [])
    else if tag > 0 ∧ tag ≠ m.tag then (m, [])
    else
      let m := { m with Timeout := m.Timeout - m.Interval }
      (m, m.tick ++ m.timedout)
  | _ => (m, [])

end timer

namespace key

/-- The data of a `key.Binding` built by `key.NewBinding`. -/
structure Binding where
  keys : List String
  helpKey : String
  helpDesc : String
  deriving DecidableEq, Repr

end key

/-- The enumeration `sessionType`. -/
inductive sessionType where
  | work
  | shortBreak
  | longBreak
  deriving DecidableEq, Repr

/-- The struct `TimerKeyMap`. -/
structure TimerKeyMap where
  Start : key.Binding
  Reset : key.Binding
  End : key.Binding
  deriving DecidableEq, Repr

/-- The struct `TimerModel`; the three `*time.Duration` fields are `Option`s. -/
structure TimerModel where
  timer : timer.Model
  sessionType : sessionType
  sessionCount : Int
  keys : TimerKeyMap
  isRunning : Bool
  customDuration : Option Duration
  customShortBreak : Option Duration
  customLongBreak : Option Duration
  progressLines : Int
  deriving DecidableEq, Repr

/-- Key bindings: `DefaultTimerKeys`. -/
def DefaultTimerKeys : TimerKeyMap :=
  { Start := { keys := [" "], helpKey := "space", helpDesc := "start/pause" }
    Reset := { keys := ["r"], helpKey := "r", helpDesc := "reset" }
    End := { keys := ["e"], helpKey := "e", helpDesc := "end session" } }

/-- Constructor `NewTimerModelWithOptions`. -/
def NewTimerModelWithOptions (sessionDuration shortBreakDuration longBreakDuration : Duration)
    (lines : Int) (lastID : Int) : TimerModel × Int :=
  let t := timer.NewWithInterval sessionDuration Second lastID
  ({ timer := t.1
     sessionType := sessionType.work
     sessionCount := 0
     keys := DefaultTimerKeys
     isRunning := false
     customDuration := some sessionDuration
     customShortBreak := some shortBreakDuration
     customLongBreak := some longBreakDuration
     progressLines := lines }, t.2)

/-- Method `getCurrentSessionDuration`: the configured duration of the current
session type, or the built-in fallback when the pointer is nil. -/
def TimerModel.getCurrentSessionDuration (m : TimerModel) : Duration :=
  match m.sessionType with
  | sessionType.work =>
    match m.customDuration with
    | some d => d
    | none => 25 * Minute
  | sessionType.shortBreak =>
    match m.customShortBreak with
    | some d => d
    | none => 5 * Minute
  | sessionType.longBreak =>
    match m.customLongBreak with
    | some d => d
    | none => 15 * Minute

/-- Method `nextSession`: leaving work counts the session and picks the break,
leaving a break goes back to work; the countdown is created anew. `%` is Go's
truncated remainder. -/
def TimerModel.nextSession (m : TimerModel) (lastID : Int) : TimerModel × Int :=
  let m1 : TimerModel :=
    match m.sessionType with
    | sessionType.work =>
      let m0 := { m with sessionCount := m.sessionCount + 1 }
      if Int.tmod m0.sessionCount 4 = 0 then { m0 with sessionType := sessionType.longBreak }
      else { m0 with sessionType := sessionType.shortBreak }
    | sessionType.shortBreak => { m with sessionType := sessionType.work }
    | sessionType.longBreak => { m with sessionType := sessionType.work }
  let duration := m1.getCurrentSessionDuration
  let t := timer.NewWithInterval duration Second lastID
  ({ m1 with timer := t.1 }, t.2)

/-- Method `TimerModel.Update`, returning the new model, the command and the
library's counter. -/
def TimerModel.Update (m : TimerModel) (msg : Msg) (lastID : Int) : TimerModel × Cmd × Int :=
  let fallthrough : TimerModel × Cmd × Int :=
    let r := m.timer.Update msg
    ({ m with timer := r.1 }, r.2, lastID)
  match msg with
  | Msg.key s =>
    if s = " " then
      if m.isRunning then
        let m := { m with isRunning := false }
        (m, m.timer.Stop, lastID)
      else
        let m := { m with isRunning := true }
        (m, m.timer.Start, lastID)
    else if s = "r" then
      let m := { m with isRunning := false }
      let duration := m.getCurrentSessionDuration
      let t := timer.NewWithInterval duration Second lastID
      ({ m with timer := t.1 }, [], t.2)
    else if s = "e" then
      let m := { m with isRunning := false }
      let r := m.nextSession lastID
      (r.1, [], r.2)
    else fallthrough
  | Msg.tick _ _ _ =>
    if m.isRunning then
      let r := m.timer.Update msg
      ({ m with timer := r.1 }, r.2, lastID)
    else (m, [], lastID)
  | Msg.timeout _ =>
    let m := { m with isRunning := true }
    let r := m.nextSession lastID
    (r.1, r.1.timer.Start, r.2)
  | _ => fallthrough

/-- Applies `TimerModel.Update` to a sequence of messages, in order, threading
the model and the library's counter. -/
def runUpdates (s : TimerModel × Int) (msgs : List Msg) : TimerModel × Int :=
  msgs.foldl (fun s msg => let r := s.1.Update msg s.2; (r.1, r.2.2)) s

/-- Applies `nextSession` the given number of times. -/
def advance (k : Nat) (s : TimerModel × Int) : TimerModel × Int :=
  (fun s => s.1.nextSession s.2)^[k] s

/-! ### Floating point

Go's `float64` is IEEE 754 binary64 with round-to-nearest, ties-to-even. A
finite value is denoted by the rational number it equals, and every operation
is the exact operation followed by `Float64.round`. Infinities, NaN, the sign of
zero and the limits of the exponent range are not part of the model: the
renderer divides by `totalChars - 1`, which is at least 9 whenever a cell is
produced, and all its values have magnitude between 2^-63 and 2^127. -/

/-- A finite `float64`, as the rational it denotes. -/
abbrev Float64 := ℚ

namespace Float64

/-- Nearest integer, a tie going to the even neighbour. -/
def roundHalfEven (t : ℚ) : Int :=
  let f := ⌊t⌋
  if t - f < 1 / 2 then f
  else if 1 / 2 < t - f then f + 1
  else if f % 2 = 0 then f
  else f + 1

/-- Rounds a nonnegative rational to 53 significant bits: with
`2^e ≤ x < 2^(e+1)` the result is the multiple of `2^(e-52)` nearest to `x`. -/
def roundMag (x : ℚ) : ℚ :=
  let ulp : ℚ := 2 ^ (Int.log 2 x - 52)
  roundHalfEven (x / ulp) * ulp

/-- Rounding of an exact result to `float64`. -/
def round (x : ℚ) : Float64 :=
  if 0 ≤ x then roundMag x else -roundMag (-x)

/-- Conversion `float64(n)` of an integer. -/
def ofInt (n : Int) : Float64 := round n

/-- Sum `a + b` of two `float64`. -/
def add (a b : Float64) : Float64 := round (a + b)

/-- Difference `a - b` of two `float64`. -/
def sub (a b : Float64) : Float64 := round (a - b)

/-- Product `a * b` of two `float64`. -/
def mul (a b : Float64) : Float64 := round (a * b)

/-- Quotient `a / b` of two `float64`, for `b` other than zero. -/
def div (a b : Float64) : Float64 := round (a / b)

/-- Conversion `int(a)`: truncation toward zero. -/
def toInt (a : Float64) : Int :=
  if 0 ≤ a then ⌊a⌋ else ⌈a⌉

/-- Comparison `a > b`. -/
def gt (a b : Float64) : Bool := decide (b < a)

end Float64

/-- Method `Duration.Seconds` of package `time`: `float64(sec) + float64(nsec)/1e9`
with `sec := d / Second` and `nsec := d % Second`, both truncated. -/
def Duration.Seconds (d : Duration) : Float64 :=
  Float64.add (Float64.ofInt (Int.tdiv d Second))
    (Float64.div (Float64.ofInt (Int.tmod d Second)) 1000000000)

/-- Whole seconds `int(d.Seconds())` of a duration. -/
def Duration.wholeSeconds (d : Duration) : Int :=
  Float64.toInt (Duration.Seconds d)

/-! ### Sand timer -/

/-- One character of the sand timer as `lipgloss` renders it: the foreground
colour handed to `lipgloss.Color` and the glyph. -/
structure Cell where
  color : String
  glyph : Char
  deriving DecidableEq, Repr

/-- Glyph of a drained cell. -/
def drained : Char := '░'

/-- Glyph of a cell that is still full. -/
def filled : Char := '▓'

/-- Value of a hexadecimal digit. -/
def hexDigitValue (c : Char) : Option Int :=
  if '0' ≤ c ∧ c ≤ '9' then some (c.toNat - 48)
  else if 'a' ≤ c ∧ c ≤ 'f' then some (c.toNat - 87)
  else if 'A' ≤ c ∧ c ≤ 'F' then some (c.toNat - 55)
  else none

/-- Method `parseHexColor`: drops a leading `#` and scans three two-digit
hexadecimal numbers. `none` stands for the panic of `hex[0]` on the empty
string and for text on which `fmt.Sscanf` does not read six hexadecimal digits,
which the embedding does not cover; both call sites pass a literal. -/
def parseHexColor (hex : String) : Option (Int × Int × Int) :=
  match hex.toList with
  | [] => none
  | c :: cs =>
    match (if c = '#' then cs else c :: cs) with
    | r1 :: r2 :: g1 :: g2 :: b1 :: b2 :: _ =>
      match hexDigitValue r1, hexDigitValue r2, hexDigitValue g1, hexDigitValue g2,
        hexDigitValue b1, hexDigitValue b2 with
      | some x1, some x2, some y1, some y2, some z1, some z2 =>
        some (16 * x1 + x2, 16 * y1 + y2, 16 * z1 + z2)
      | _, _, _, _, _, _ => none
    | _ => none

/-- Lower-case hexadecimal digits of `%02x` for a channel value; the value has
been clamped to `[0, 255]` before it is formatted. -/
def formatHex2 (n : Int) : List Char :=
  let ds := Nat.toDigits 16 n.toNat
  if ds.length < 2 then List.replicate (2 - ds.length) '0' ++ ds else ds

/-- Clamping of a channel to `[0, 255]`, the two `if`s of `interpolateColor`. -/
def clampChannel (v : Int) : Int :=
  let v1 := if v < 0 then 0 else v
  if v1 > 255 then 255 else v1

/-- Method `interpolateColor`: per channel
`int(float64(start) + progress*(float64(end)-float64(start)))`, clamped and
formatted as `#rrggbb`. Each operation is rounded on its own. -/
def interpolateColor (startColor endColor : String) (progress : Float64) : Option String :=
  match parseHexColor startColor, parseHexColor endColor with
  | some start, some stop =>
    let channel (a b : Int) : Int :=
      Float64.toInt (Float64.add (Float64.ofInt a)
        (Float64.mul progress (Float64.sub (Float64.ofInt b) (Float64.ofInt a))))
    let r := clampChannel (channel start.1 stop.1)
    let g := clampChannel (channel start.2.1 stop.2.1)
    let b := clampChannel (channel start.2.2 stop.2.2)
    some (String.mk ('#' :: (formatHex2 r ++ formatHex2 g ++ formatHex2 b)))
  | _, _ => none

/-- Method `getSandTimer`: the lines of the sand timer, each a list of cells;
the empty list is the empty string returned for `width < 10`. `none` is a
panic while a colour is computed. -/
def TimerModel.getSandTimer (m : TimerModel) (width : Int) : Option (List (List Cell)) :=
  if width < 10 then some []
  else
    let remaining := m.timer.Timeout
    let total := m.getCurrentSessionDuration
    let elapsed := total - remaining
    let totalSecondsElapsed := Duration.wholeSeconds elapsed
    let totalSessionSeconds := Duration.wholeSeconds total
    (List.range m.progressLines.toNat).mapM fun (lineIdx : Nat) =>
      (List.range width.toNat).mapM fun (charIdx : Nat) =>
        let reversedCharIdx : Int := width - 1 - (charIdx : Int)
        let globalCharPos : Int := (lineIdx : Int) * width + reversedCharIdx
        let totalChars : Int := m.progressLines * width
        let charThreshold :=
          Float64.div (Float64.ofInt globalCharPos) (Float64.ofInt (totalChars - 1))
        let timeThreshold := Float64.mul charThreshold (Float64.ofInt totalSessionSeconds)
        let progress :=
          Float64.div (Float64.ofInt globalCharPos) (Float64.ofInt (totalChars - 1))
        match interpolateColor "#FF7CCB" "#FDFF8C" progress with
        | none => none
        | some color =>
          if Float64.gt (Float64.ofInt totalSecondsElapsed) timeThreshold then
            some { color := color, glyph := drained }
          else
            some { color := color, glyph := filled }

/-- The local `totalSecondsElapsed` of `getSandTimer`: whole seconds of
`total - remaining`. -/
def TimerModel.totalSecondsElapsed (m : TimerModel) : Int :=
  Duration.wholeSeconds (m.getCurrentSessionDuration - m.timer.Timeout)

/-- The local `totalSessionSeconds` of `getSandTimer`: whole seconds of the
current session's duration. -/
def TimerModel.totalSessionSeconds (m : TimerModel) : Int :=
  Duration.wholeSeconds m.getCurrentSessionDuration

/-- The local `globalCharPos` of `getSandTimer` for line `r` and column `c` of a
grid `width` wide: columns count from the right. -/
def globalCharPos (width : Int) (r c : Nat) : Int :=
  r * width + (width - 1 - c)

/-- The local `timeThreshold` of `getSandTimer` for the cell at line `r`, column
`c`: the quotient and the product are `float64` operations. -/
def TimerModel.timeThreshold (m : TimerModel) (width : Int) (r c : Nat) : Float64 :=
  Float64.mul
    (Float64.div (Float64.ofInt (globalCharPos width r c))
      (Float64.ofInt (m.progressLines * width - 1)))
    (Float64.ofInt m.totalSessionSeconds)

/-- The cell at line `r`, column `c` of a rendered grid. -/
def cellAt (grid : List (List Cell)) (r c : Nat) : Option Cell :=
  match grid.get? r with
  | none => none
  | some line => line.get? c

/-- The model `NewTimerModelWithOptions total 5m 15m lines` builds, with its
countdown advanced to `remaining`. -/
def sessionWithRemaining (total remaining : Duration) (lines : Int) : TimerModel :=
  let m := (NewTimerModelWithOptions total (5 * Minute) (15 * Minute) lines 0).1
  { m with timer := { m.timer with Timeout := remaining } }

/-- A session of 4 min 39 s with the default five lines, after the space key,
the start message it triggers and 39 ticks. -/
def after39Ticks : TimerModel :=
  (runUpdates (NewTimerModelWithOptions (279 * Second) (5 * Minute) (15 * Minute) 5 0)
    (Msg.key " " :: Msg.startStop 1 true :: List.replicate 39 (Msg.tick 1 false 0))).1

/-- One colour channel of `interpolateColor`, before clamping:
`int(float64(a) + progress*(float64(b)-float64(a)))`. -/
def interpolateChannel (a b : Int) (progress : Float64) : Int :=
  Float64.toInt (Float64.add (Float64.ofInt a)
    (Float64.mul progress (Float64.sub (Float64.ofInt b) (Float64.ofInt a))))

/-! ### Root model (`main.go`)

`TodoModel` wraps the list and text-area widgets of the bubbles library; the
root model is embedded over an arbitrary todo component `Todo` whose `Update`
is a parameter. -/

/-- The enumeration `viewState`. -/
inductive viewState where
  | timerView
  | todoView
  deriving DecidableEq, Repr

/-- The struct `KeyMap` of `keys.go`. -/
structure KeyMap where
  Quit : key.Binding
  SwitchView : key.Binding
  deriving DecidableEq, Repr

/-- Key bindings: `DefaultKeyMap`. -/
def DefaultKeyMap : KeyMap :=
  { Quit := { keys := ["q", "ctrl+c"], helpKey := "q", helpDesc := "quit" }
    SwitchView := { keys := ["tab"], helpKey := "tab", helpDesc := "switch view" } }

/-- The struct `model` of `main.go`. -/
structure model (Todo : Type) where
  timer : TimerModel
  todo : Todo
  view : viewState
  keys : KeyMap
  width : Int
  height : Int

/-- Function `initialModel`; `newTodo` is the result of `NewTodoModel()`. -/
def initialModel {Todo : Type} (newTodo : Todo)
    (sessionDuration shortBreakDuration longBreakDuration : Duration) (lines : Int)
    (lastID : Int) : model Todo × Int :=
  let t := NewTimerModelWithOptions sessionDuration shortBreakDuration longBreakDuration lines
    lastID
  ({ timer := t.1
     todo := newTodo
     view := viewState.timerView
     keys := DefaultKeyMap
     width := 0
     height := 0 }, t.2)

/-- Method `model.Update` of `main.go`: a window size is stored, "q" and
"ctrl+c" quit, "tab" switches the view; every other message goes to the timer
and, in the todo view, to the todo component as well. `todoUpdate` is
`TodoModel.Update`. -/
def model.Update {Todo : Type} (todoUpdate : Todo → Msg → Todo × Cmd) (m : model Todo)
    (msg : Msg) (lastID : Int) : model Todo × Cmd × Int :=
  let forward : model Todo × Cmd × Int :=
    let r := m.timer.Update msg lastID
    let m1 := { m with timer := r.1 }
    let timerCmd := r.2.1
    if m1.view = viewState.timerView then (m1, timerCmd, r.2.2)
    else
      let t := todoUpdate m1.todo msg
      ({ m1 with todo := t.1 }, t.2 ++ timerCmd, r.2.2)
  match msg with
  | Msg.windowSize w h => ({ m with width := w, height := h }, [], lastID)
  | Msg.key s =>
    if s = "q" ∨ s = "ctrl+c" then (m, [Msg.quit], lastID)
    else if s = "tab" then
      if m.view = viewState.timerView then ({ m with view := viewState.todoView }, [], lastID)
      else ({ m with view := viewState.timerView }, [], lastID)
    else forward
  | _ => forward

/-- The root model `initialModel` builds for the default durations, switched to
the todo view (the state after one "tab"). -/
def todoViewModel {Todo : Type} (newTodo : Todo) : model Todo :=
  { (initialModel newTodo (25 * Minute) (5 * Minute) (15 * Minute) 5 0).1 with
    view := viewState.todoView }

/-- The configuration a model built by `NewTimerModelWithOptions w s l _` keeps:
the three duration pointers hold the constructor's arguments. -/
def Configured (w s l : Duration) (m : TimerModel) : Prop :=
  m.customDuration = some w ∧ m.customShortBreak = some s ∧ m.customLongBreak = some l

/-- The duration configured for a session type. -/
def configuredDuration (w s l : Duration) : sessionType → Duration
  | sessionType.work => w
  | sessionType.shortBreak => s
  | sessionType.longBreak => l

/-- Bounds kept by the countdown of a configured model: it ticks by one second,
stays above minus one second and never exceeds the session's duration. -/
def CountdownBounds (w s l : Duration) (m : TimerModel) : Prop :=
  Configured w s l m ∧ m.timer.Interval = Second ∧ -Second < m.timer.Timeout
    ∧ m.timer.Timeout ≤ m.getCurrentSessionDuration

/-- Countdown of a model whose durations are whole seconds: a whole, nonnegative
number of seconds. -/
def WholeSeconds (w s l : Duration) (m : TimerModel) : Prop :=
  Configured w s l m ∧ m.timer.Interval = Second ∧ Second ∣ m.timer.Timeout
    ∧ 0 ≤ m.timer.Timeout

/-- Messages on which `TimerModel.Update` calls `nextSession`: the key "e" and
every `timer.TimeoutMsg`. -/
def isTransition : Msg → Bool
  | Msg.key s => decide (s = "e")
  | Msg.timeout _ => true
  | _ => false

/-- The break that follows the `n`-th work session. -/
def breakAfter (n : Nat) : sessionType :=
  if 4 ∣ n then sessionType.longBreak else sessionType.shortBreak

/-- Session type and session count of a model. -/
def TimerModel.session (m : TimerModel) : Pom.sessionType × Int :=
  (m.sessionType, m.sessionCount)

/-- What `nextSession` does to the session type and count, read off its two
assignments. -/
def sessionStep (p : sessionType × Int) : sessionType × Int :=
  match p.1 with
  | sessionType.work =>
    (if Int.tmod (p.2 + 1) 4 = 0 then sessionType.longBreak else sessionType.shortBreak, p.2 + 1)
  | sessionType.shortBreak => (sessionType.work, p.2)
  | sessionType.longBreak => (sessionType.work, p.2)

/-! ## Session state machine -/

theorem nextSession_fields (m : TimerModel) (lastID : Int) :
    (m.nextSession lastID).1.customDuration = m.customDuration
    ∧ (m.nextSession lastID).1.customShortBreak = m.customShortBreak
    ∧ (m.nextSession lastID).1.customLongBreak = m.customLongBreak
    ∧ (m.nextSession lastID).1.timer.Interval = Second
    ∧ (m.nextSession lastID).1.timer.Timeout
        = (m.nextSession lastID).1.getCurrentSessionDuration := by
  cases hs : m.sessionType <;>
    simp only [TimerModel.nextSession, timer.NewWithInterval, hs,
      TimerModel.getCurrentSessionDuration]
  · by_cases hd : Int.tmod (m.sessionCount + 1) 4 = 0 <;> simp [hd]
  · simp
  · simp

/-- C1: `nextSession` leaves work by counting the session and choosing the long
break exactly when the new count is a multiple of 4 (the short break
otherwise), leaves either break for work with the count unchanged, changes no
other field, and installs a fresh one-second countdown whose remaining time is
`getCurrentSessionDuration` of the new session type. -/
theorem nextSession_transition (m : TimerModel) (lastID : Int) :
    (m.nextSession lastID).1.sessionCount
        = (match m.sessionType with
          | sessionType.work => m.sessionCount + 1
          | sessionType.shortBreak => m.sessionCount
          | sessionType.longBreak => m.sessionCount)
    ∧ (m.nextSession lastID).1.sessionType
        = (match m.sessionType with
          | sessionType.work =>
            if (4 : Int) ∣ m.sessionCount + 1 then sessionType.longBreak
            else sessionType.shortBreak
          | sessionType.shortBreak => sessionType.work
          | sessionType.longBreak => sessionType.work)
    ∧ (m.nextSession lastID).1.timer
        = (timer.NewWithInterval (m.nextSession lastID).1.getCurrentSessionDuration
            Second lastID).1
    ∧ (m.nextSession lastID).1.timer.Timeout
        = (m.nextSession lastID).1.getCurrentSessionDuration
    ∧ (m.nextSession lastID).1.isRunning = m.isRunning
    ∧ (m.nextSession lastID).1.customDuration = m.customDuration
    ∧ (m.nextSession lastID).1.customShortBreak = m.customShortBreak
    ∧ (m.nextSession lastID).1.customLongBreak = m.customLongBreak
    ∧ (m.nextSession lastID).1.progressLines = m.progressLines
    ∧ (m.nextSession lastID).1.keys = m.keys := by
  have h4 : Int.tmod (m.sessionCount + 1) 4 = 0 ↔ (4 : Int) ∣ m.sessionCount + 1 := by
    constructor
    · intro h
      exact Int.dvd_of_tmod_eq_zero h
    · intro h
      exact Int.tmod_eq_zero_of_dvd h
  cases hs : m.sessionType <;>
    simp only [TimerModel.nextSession, timer.NewWithInterval, hs,
      TimerModel.getCurrentSessionDuration]
  · by_cases hd : (4 : Int) ∣ m.sessionCount + 1
    · simp [h4.mpr hd, hd]
    · have hn : ¬ Int.tmod (m.sessionCount + 1) 4 = 0 := fun h => hd (h4.mp h)
      simp [hn, hd]
  · simp
  · simp

/-- C2: whatever the running flag was, a `timer.TimeoutMsg` yields the model
`nextSession` produces with `isRunning = true`, and the key "e" yields the
model `nextSession` produces with `isRunning = false`. -/
theorem Update_timeout_running_end_paused (m : TimerModel) (lastID ID : Int) :
    (m.Update (Msg.timeout ID) lastID).1
        = { (m.nextSession lastID).1 with isRunning := true }
    ∧ (m.Update (Msg.timeout ID) lastID).1.isRunning = true
    ∧ (m.Update (Msg.key "e") lastID).1
        = { (m.nextSession lastID).1 with isRunning := false }
    ∧ (m.Update (Msg.key "e") lastID).1.isRunning = false
    ∧ (m.Update (Msg.timeout ID) lastID).2.2 = (m.nextSession lastID).2
    ∧ (m.Update (Msg.key "e") lastID).2.2 = (m.nextSession lastID).2 := by
  have he1 : ¬ ("e" = " ") := by decide
  have he2 : ¬ ("e" = "r") := by decide
  cases hs : m.sessionType <;>
    simp only [TimerModel.Update, TimerModel.nextSession, timer.NewWithInterval, hs,
      TimerModel.getCurrentSessionDuration, he1, he2, if_false, if_true]
  · by_cases hd : Int.tmod (m.sessionCount + 1) 4 = 0 <;> simp [hd]
  · simp
  · simp

/-- C9: the key "r" pauses the timer and installs a fresh one-second countdown
whose remaining time is `getCurrentSessionDuration` of the unchanged session
type; the session count and every other field stay as they were. -/
theorem Update_reset (m : TimerModel) (lastID : Int) :
    (m.Update (Msg.key "r") lastID).1.isRunning = false
    ∧ (m.Update (Msg.key "r") lastID).1.timer
        = (timer.NewWithInterval m.getCurrentSessionDuration Second lastID).1
    ∧ (m.Update (Msg.key "r") lastID).1.timer.Timeout = m.getCurrentSessionDuration
    ∧ (m.Update (Msg.key "r") lastID).1.timer.Timeout
        = (m.Update (Msg.key "r") lastID).1.getCurrentSessionDuration
    ∧ (m.Update (Msg.key "r") lastID).1.sessionType = m.sessionType
    ∧ (m.Update (Msg.key "r") lastID).1.sessionCount = m.sessionCount
    ∧ (m.Update (Msg.key "r") lastID).1.customDuration = m.customDuration
    ∧ (m.Update (Msg.key "r") lastID).1.customShortBreak = m.customShortBreak
    ∧ (m.Update (Msg.key "r") lastID).1.customLongBreak = m.customLongBreak
    ∧ (m.Update (Msg.key "r") lastID).1.progressLines = m.progressLines := by
  have hr : ¬ ("r" = " ") := by decide
  simp [TimerModel.Update, timer.NewWithInterval, TimerModel.getCurrentSessionDuration, hr]

/-! ## Reachable states -/

theorem runUpdates_nil (s : TimerModel × Int) : runUpdates s [] = s := rfl

theorem runUpdates_cons (s : TimerModel × Int) (msg : Msg) (msgs : List Msg) :
    runUpdates s (msg :: msgs)
      = runUpdates ((s.1.Update msg s.2).1, (s.1.Update msg s.2).2.2) msgs := rfl

/-- A property kept by every `Update` holds after any sequence of messages. -/
theorem runUpdates_preserves (P : TimerModel → Prop)
    (step : ∀ (m : TimerModel) (msg : Msg) (lastID : Int), P m → P (m.Update msg lastID).1)
    (msgs : List Msg) : ∀ s : TimerModel × Int, P s.1 → P (runUpdates s msgs).1 := by
  induction msgs with
  | nil => intro s h; exact h
  | cons msg msgs ih =>
    intro s h
    rw [runUpdates_cons]
    exact ih _ (step s.1 msg s.2 h)

theorem getCurrentSessionDuration_of_configured {w s l : Duration} {m : TimerModel}
    (h : Configured w s l m) :
    m.getCurrentSessionDuration = configuredDuration w s l m.sessionType := by
  obtain ⟨h1, h2, h3⟩ := h
  cases hs : m.sessionType <;>
    simp [TimerModel.getCurrentSessionDuration, configuredDuration, hs, h1, h2, h3]

theorem timer_Update_fields (t : timer.Model) (msg : Msg) :
    (t.Update msg).1.Interval = t.Interval
    ∧ ((t.Update msg).1.Timeout = t.Timeout
      ∨ (0 < t.Timeout ∧ (t.Update msg).1.Timeout = t.Timeout - t.Interval)) := by
  cases msg with
  | startStop ID running =>
    simp only [timer.Model.Update]
    split <;> simp
  | tick ID b tag =>
    simp only [timer.Model.Update]
    split
    · simp
    · rename_i hrun
      split
      · simp
      · refine ⟨rfl, Or.inr ⟨?_, rfl⟩⟩
        by_contra hle
        apply hrun
        simp [timer.Model.Running, timer.Model.Timedout, not_lt.mp hle]
  | key s => simp [timer.Model.Update]
  | timeout ID => simp [timer.Model.Update]
  | other => simp [timer.Model.Update]
  | windowSize w h => simp [timer.Model.Update]
  | quit => simp [timer.Model.Update]

theorem nextSession_configured {w s l : Duration} (m : TimerModel) (lastID : Int)
    (h : Configured w s l m) : Configured w s l (m.nextSession lastID).1 := by
  obtain ⟨h1, h2, h3⟩ := h
  have key := nextSession_fields m lastID
  exact ⟨key.1.trans h1, key.2.1.trans h2, key.2.2.1.trans h3⟩

/-- Shape of one `Update`: either a session transition, or a step that keeps
the session type and the configuration and leaves the countdown alone, hands
the message to it, or replaces it by a fresh one. -/
theorem Update_shape (m : TimerModel) (msg : Msg) (lastID : Int) :
    (∃ b : Bool, (m.Update msg lastID).1 = ({ m with isRunning := b }.nextSession lastID).1)
    ∨ ((m.Update msg lastID).1.customDuration = m.customDuration
      ∧ (m.Update msg lastID).1.customShortBreak = m.customShortBreak
      ∧ (m.Update msg lastID).1.customLongBreak = m.customLongBreak
      ∧ (m.Update msg lastID).1.sessionType = m.sessionType
      ∧ ((m.Update msg lastID).1.timer = m.timer
        ∨ (m.Update msg lastID).1.timer = (m.timer.Update msg).1
        ∨ (m.Update msg lastID).1.timer
            = (timer.NewWithInterval m.getCurrentSessionDuration Second lastID).1)) := by
  cases msg with
  | key s =>
    by_cases h1 : s = " "
    · right
      by_cases hr : m.isRunning <;> simp [TimerModel.Update, h1, hr]
    · by_cases h2 : s = "r"
      · right
        simp [TimerModel.Update, h1, h2, TimerModel.getCurrentSessionDuration]
      · by_cases h3 : s = "e"
        · left
          exact ⟨false, by simp [TimerModel.Update, h1, h2, h3]⟩
        · right
          simp [TimerModel.Update, h1, h2, h3]
  | tick ID b tag =>
    right
    by_cases hr : m.isRunning <;> simp [TimerModel.Update, hr]
  | timeout ID =>
    left
    exact ⟨true, by simp [TimerModel.Update]⟩
  | startStop ID running =>
    right
    simp [TimerModel.Update]
  | other =>
    right
    simp [TimerModel.Update]
  | windowSize w h =>
    right
    simp [TimerModel.Update]
  | quit =>
    right
    simp [TimerModel.Update]

theorem Update_configured {w s l : Duration} (m : TimerModel) (msg : Msg) (lastID : Int)
    (h : Configured w s l m) : Configured w s l (m.Update msg lastID).1 := by
  rcases Update_shape m msg lastID with ⟨b, hb⟩ | ⟨h1, h2, h3, -, -⟩
  · rw [hb]
    exact nextSession_configured _ lastID h
  · exact ⟨h1.trans h.1, h2.trans h.2.1, h3.trans h.2.2⟩

theorem getCurrentSessionDuration_congr {m m2 : TimerModel}
    (h1 : m2.customDuration = m.customDuration)
    (h2 : m2.customShortBreak = m.customShortBreak)
    (h3 : m2.customLongBreak = m.customLongBreak)
    (h4 : m2.sessionType = m.sessionType) :
    m2.getCurrentSessionDuration = m.getCurrentSessionDuration := by
  simp only [TimerModel.getCurrentSessionDuration, h1, h2, h3, h4]

theorem Update_countdownBounds {w s l : Duration} (hw : 0 < w) (hs : 0 < s) (hl : 0 < l)
    (m : TimerModel) (msg : Msg) (lastID : Int)
    (h : CountdownBounds w s l m) : CountdownBounds w s l (m.Update msg lastID).1 := by
  have hc := Update_configured m msg lastID h.1
  have hpos : ∀ t : sessionType, 0 < configuredDuration w s l t := by
    intro t
    cases t <;> simpa [configuredDuration]
  have hsec : (0 : Int) < Second := by decide
  refine ⟨hc, ?_⟩
  rcases Update_shape m msg lastID with ⟨b, hb⟩ | ⟨h1, h2, h3, h4, ht⟩
  · have hf := nextSession_fields { m with isRunning := b } lastID
    rw [← hb] at hf
    refine ⟨hf.2.2.2.1, ?_, le_of_eq hf.2.2.2.2⟩
    rw [hf.2.2.2.2, getCurrentSessionDuration_of_configured hc]
    have := hpos (m.Update msg lastID).1.sessionType
    linarith
  · have hd := getCurrentSessionDuration_congr h1 h2 h3 h4
    rw [hd]
    obtain ⟨hcm, hi, hlo, hhi⟩ := h
    rcases ht with ht | ht | ht
    · rw [ht]
      exact ⟨hi, hlo, hhi⟩
    · rw [ht]
      obtain ⟨hint, hto⟩ := timer_Update_fields m.timer msg
      refine ⟨hint.trans hi, ?_⟩
      rcases hto with hto | ⟨hp, hto⟩
      · rw [hto]
        exact ⟨hlo, hhi⟩
      · rw [hto, hi]
        constructor <;> linarith
    · rw [ht]
      simp only [timer.NewWithInterval]
      refine ⟨trivial, ?_, le_refl _⟩
      rw [getCurrentSessionDuration_of_configured hcm]
      have := hpos m.sessionType
      linarith

theorem Update_wholeSeconds {w s l : Duration} (hw : 0 < w) (hs : 0 < s) (hl : 0 < l)
    (dw : Second ∣ w) (ds : Second ∣ s) (dl : Second ∣ l)
    (m : TimerModel) (msg : Msg) (lastID : Int)
    (h : WholeSeconds w s l m) : WholeSeconds w s l (m.Update msg lastID).1 := by
  have hc := Update_configured m msg lastID h.1
  have hpos : ∀ t : sessionType,
      0 ≤ configuredDuration w s l t ∧ Second ∣ configuredDuration w s l t := by
    intro t
    cases t <;> simp [configuredDuration, *, le_of_lt]
  refine ⟨hc, ?_⟩
  rcases Update_shape m msg lastID with ⟨b, hb⟩ | ⟨h1, h2, h3, h4, ht⟩
  · have hf := nextSession_fields { m with isRunning := b } lastID
    rw [← hb] at hf
    refine ⟨hf.2.2.2.1, ?_⟩
    rw [hf.2.2.2.2, getCurrentSessionDuration_of_configured hc]
    exact ⟨(hpos _).2, (hpos _).1⟩
  · obtain ⟨hcm, hi, hdv, hnn⟩ := h
    rcases ht with ht | ht | ht
    · rw [ht]
      exact ⟨hi, hdv, hnn⟩
    · rw [ht]
      obtain ⟨hint, hto⟩ := timer_Update_fields m.timer msg
      refine ⟨hint.trans hi, ?_⟩
      rcases hto with hto | ⟨hp, hto⟩
      · rw [hto]
        exact ⟨hdv, hnn⟩
      · rw [hto, hi]
        refine ⟨Dvd.dvd.sub hdv (dvd_refl _), ?_⟩
        have hle : Second ≤ m.timer.Timeout := Int.le_of_dvd hp hdv
        linarith
    · rw [ht]
      simp only [timer.NewWithInterval]
      rw [getCurrentSessionDuration_of_configured hcm]
      exact ⟨trivial, (hpos _).2, (hpos _).1⟩

theorem NewTimerModelWithOptions_configured (w s l : Duration) (lines lastID : Int) :
    Configured w s l (NewTimerModelWithOptions w s l lines lastID).1 :=
  ⟨rfl, rfl, rfl⟩

/-- C10: in the model built by `NewTimerModelWithOptions w s l n` and after any
sequence of `Update` messages, `getCurrentSessionDuration` is `w` in work, `s`
in the short break and `l` in the long break: the configured value, never a
built-in fallback. -/
theorem getCurrentSessionDuration_resolves (w s l : Duration) (lines lastID : Int)
    (msgs : List Msg) :
    (runUpdates (NewTimerModelWithOptions w s l lines lastID) msgs).1.getCurrentSessionDuration
      = (match (runUpdates (NewTimerModelWithOptions w s l lines lastID) msgs).1.sessionType with
        | sessionType.work => w
        | sessionType.shortBreak => s
        | sessionType.longBreak => l) := by
  have hc : Configured w s l (runUpdates (NewTimerModelWithOptions w s l lines lastID) msgs).1 :=
    runUpdates_preserves (Configured w s l)
      (fun m msg L h => Update_configured m msg L h) msgs _
      (NewTimerModelWithOptions_configured w s l lines lastID)
  rw [getCurrentSessionDuration_of_configured hc]
  cases (runUpdates (NewTimerModelWithOptions w s l lines lastID) msgs).1.sessionType <;> rfl

/-- C8, as the code has it: from `NewTimerModelWithOptions` with three positive
durations, after any sequence of messages the remaining time is at most the
session's duration and above minus one second; when the three durations are
whole numbers of seconds it is never negative. -/
theorem remaining_bounds (w s l : Duration) (lines lastID : Int) (msgs : List Msg)
    (hw : 0 < w) (hs : 0 < s) (hl : 0 < l) :
    (runUpdates (NewTimerModelWithOptions w s l lines lastID) msgs).1.timer.Timeout
        ≤ (runUpdates (NewTimerModelWithOptions w s l lines lastID)
            msgs).1.getCurrentSessionDuration
    ∧ -Second < (runUpdates (NewTimerModelWithOptions w s l lines lastID) msgs).1.timer.Timeout
    ∧ (Second ∣ w ∧ Second ∣ s ∧ Second ∣ l →
        0 ≤ (runUpdates (NewTimerModelWithOptions w s l lines lastID) msgs).1.timer.Timeout) := by
  have hsec : (0 : Int) < Second := by decide
  have h0 : CountdownBounds w s l (NewTimerModelWithOptions w s l lines lastID).1 := by
    refine ⟨NewTimerModelWithOptions_configured w s l lines lastID, rfl, ?_, le_refl _⟩
    show -Second < w
    linarith
  have hb := runUpdates_preserves (CountdownBounds w s l)
    (fun m msg L h => Update_countdownBounds hw hs hl m msg L h) msgs _ h0
  refine ⟨hb.2.2.2, hb.2.2.1, ?_⟩
  rintro ⟨dw, ds, dl⟩
  have h1 : WholeSeconds w s l (NewTimerModelWithOptions w s l lines lastID).1 :=
    ⟨NewTimerModelWithOptions_configured w s l lines lastID, rfl, dw, le_of_lt hw⟩
  exact (runUpdates_preserves (WholeSeconds w s l)
    (fun m msg L h => Update_wholeSeconds hw hs hl dw ds dl m msg L h) msgs _ h1).2.2.2

/-- C8 fails as stated: with a session of 1.5 s, pressing space and letting the
countdown tick twice leaves a remaining time of -0.5 s. -/
theorem remaining_negative_after_tick :
    (runUpdates (NewTimerModelWithOptions 1500000000 (5 * Minute) (15 * Minute) 5 0)
        [Msg.key " ", Msg.startStop 1 true, Msg.tick 1 false 0,
          Msg.tick 1 false 0]).1.timer.Timeout = -500000000
    ∧ ¬ (0 ≤ (runUpdates (NewTimerModelWithOptions 1500000000 (5 * Minute) (15 * Minute) 5 0)
        [Msg.key " ", Msg.startStop 1 true, Msg.tick 1 false 0,
          Msg.tick 1 false 0]).1.timer.Timeout) := by
  decide

/-- The bounds of C8 at a 25-minute session after a start, a tick and a reset. -/
theorem remaining_bounds_witness :
    (runUpdates (NewTimerModelWithOptions (25 * Minute) (5 * Minute) (15 * Minute) 5 0)
        [Msg.key " ", Msg.tick 1 false 0, Msg.key "r"]).1.timer.Timeout
        ≤ (runUpdates (NewTimerModelWithOptions (25 * Minute) (5 * Minute) (15 * Minute) 5 0)
            [Msg.key " ", Msg.tick 1 false 0, Msg.key "r"]).1.getCurrentSessionDuration
    ∧ -Second < (runUpdates (NewTimerModelWithOptions (25 * Minute) (5 * Minute) (15 * Minute) 5 0)
        [Msg.key " ", Msg.tick 1 false 0, Msg.key "r"]).1.timer.Timeout
    ∧ (Second ∣ 25 * Minute ∧ Second ∣ 5 * Minute ∧ Second ∣ 15 * Minute →
        0 ≤ (runUpdates (NewTimerModelWithOptions (25 * Minute) (5 * Minute) (15 * Minute) 5 0)
          [Msg.key " ", Msg.tick 1 false 0, Msg.key "r"]).1.timer.Timeout) :=
  remaining_bounds (25 * Minute) (5 * Minute) (15 * Minute) 5 0
    [Msg.key " ", Msg.tick 1 false 0, Msg.key "r"] (by decide) (by decide) (by decide)

/-! ## The work/break cycle -/

theorem nextSession_session (m : TimerModel) (lastID : Int) :
    (m.nextSession lastID).1.session = sessionStep m.session := by
  cases hs : m.sessionType <;>
    simp only [TimerModel.nextSession, TimerModel.session, sessionStep, hs]
  by_cases hd : Int.tmod (m.sessionCount + 1) 4 = 0 <;> simp [hd]

theorem Update_transition_session (m : TimerModel) (msg : Msg) (lastID : Int)
    (h : isTransition msg = true) :
    (m.Update msg lastID).1.session = sessionStep m.session := by
  have he1 : ¬ ("e" = " ") := by decide
  have he2 : ¬ ("e" = "r") := by decide
  cases msg with
  | key s =>
    have hs : s = "e" := by simpa [isTransition] using h
    subst hs
    have : (m.Update (Msg.key "e") lastID).1
        = ({ m with isRunning := false }.nextSession lastID).1 := by
      simp [TimerModel.Update, he1, he2]
    rw [this, nextSession_session]
    rfl
  | timeout ID =>
    have : (m.Update (Msg.timeout ID) lastID).1
        = ({ m with isRunning := true }.nextSession lastID).1 := by
      simp [TimerModel.Update]
    rw [this, nextSession_session]
    rfl
  | tick ID b tag => simp [isTransition] at h
  | startStop ID r => simp [isTransition] at h
  | other => simp [isTransition] at h
  | windowSize w h => simp [isTransition] at h
  | quit => simp [isTransition] at h

theorem advance_session (k : Nat) (s : TimerModel × Int) :
    (advance k s).1.session = sessionStep^[k] s.1.session := by
  induction k with
  | zero => rfl
  | succ k ih =>
    have h1 : advance (k + 1) s = (advance k s).1.nextSession (advance k s).2 := by
      simp only [advance, Function.iterate_succ_apply']
    rw [h1, nextSession_session, ih, Function.iterate_succ_apply']

theorem runUpdates_transitions_session (msgs : List Msg) :
    ∀ s : TimerModel × Int, (∀ x ∈ msgs, isTransition x = true) →
      (runUpdates s msgs).1.session = sessionStep^[msgs.length] s.1.session := by
  induction msgs with
  | nil => intro s _; rfl
  | cons msg msgs ih =>
    intro s h
    rw [runUpdates_cons, ih _ (fun x hx => h x (List.mem_cons_of_mem _ hx))]
    simp only [List.length_cons, Function.iterate_succ_apply]
    rw [Update_transition_session s.1 msg s.2 (h msg (List.mem_cons_self _ _))]

theorem sessionStep_work (c : Nat) :
    sessionStep (sessionType.work, (c : Int)) = (breakAfter (c + 1), ((c + 1 : Nat) : Int)) := by
  have h4 : Int.tmod ((c : Int) + 1) 4 = 0 ↔ 4 ∣ c + 1 := by
    constructor
    · intro h
      have := Int.dvd_of_tmod_eq_zero h
      exact_mod_cast this
    · intro h
      apply Int.tmod_eq_zero_of_dvd
      exact_mod_cast h
  by_cases hd : 4 ∣ c + 1
  · simp [sessionStep, breakAfter, h4.mpr hd, hd]
  · have hn : ¬ Int.tmod ((c : Int) + 1) 4 = 0 := fun h => hd (h4.mp h)
    simp [sessionStep, breakAfter, hn, hd]

theorem sessionStep_break (n : Nat) :
    sessionStep (breakAfter n, (n : Int)) = (sessionType.work, (n : Int)) := by
  by_cases hd : 4 ∣ n <;> simp [sessionStep, breakAfter, hd]

theorem sessionStep_iterate_even (n : Nat) :
    sessionStep^[2 * n] (sessionType.work, 0) = (sessionType.work, (n : Int)) := by
  induction n with
  | zero => rfl
  | succ n ih =>
    have h2 : 2 * (n + 1) = (2 * n + 1) + 1 := by ring
    rw [h2, Function.iterate_succ_apply', Function.iterate_succ_apply', ih, sessionStep_work,
      sessionStep_break]

theorem sessionStep_iterate_odd (n : Nat) (hn : 1 ≤ n) :
    sessionStep^[2 * n - 1] (sessionType.work, 0) = (breakAfter n, (n : Int)) := by
  obtain ⟨k, rfl⟩ : ∃ k, n = k + 1 := ⟨n - 1, by omega⟩
  have h2 : 2 * (k + 1) - 1 = 2 * k + 1 := by omega
  rw [h2, Function.iterate_succ_apply', sessionStep_iterate_even, sessionStep_work]

/-- A message that is neither the key "e" nor a `timer.TimeoutMsg` leaves the
session type and the session count as they were. -/
theorem Update_other_session (m : TimerModel) (msg : Msg) (lastID : Int)
    (h : isTransition msg = false) :
    (m.Update msg lastID).1.session = m.session := by
  cases msg with
  | key s =>
    have he : ¬ s = "e" := by simpa [isTransition] using h
    by_cases h1 : s = " "
    · by_cases hr : m.isRunning <;> simp [TimerModel.Update, TimerModel.session, h1, hr]
    · by_cases h2 : s = "r"
      · simp [TimerModel.Update, TimerModel.session, h1, h2]
      · simp [TimerModel.Update, TimerModel.session, h1, h2, he]
  | timeout ID => simp [isTransition] at h
  | tick ID b tag =>
    by_cases hr : m.isRunning <;> simp [TimerModel.Update, TimerModel.session, hr]
  | startStop ID r => simp [TimerModel.Update, TimerModel.session]
  | other => simp [TimerModel.Update, TimerModel.session]
  | windowSize w h => simp [TimerModel.Update, TimerModel.session]
  | quit => simp [TimerModel.Update, TimerModel.session]

/-- After any sequence of messages the session type and count are those of as
many session transitions as the sequence holds "e" keys and timeout messages. -/
theorem runUpdates_session (msgs : List Msg) :
    ∀ s : TimerModel × Int,
      (runUpdates s msgs).1.session = sessionStep^[msgs.countP isTransition] s.1.session := by
  induction msgs with
  | nil => intro s; rfl
  | cons msg msgs ih =>
    intro s
    rw [runUpdates_cons, ih]
    by_cases h : isTransition msg = true
    · rw [List.countP_cons_of_pos _ _ h, Function.iterate_succ_apply,
        Update_transition_session s.1 msg s.2 h]
    · have hf : isTransition msg = false := by simpa using h
      rw [List.countP_cons_of_neg _ _ h, Update_other_session s.1 msg s.2 hf]

/-- C3: from `NewTimerModelWithOptions`, for every `n ≥ 1`, after `2n-1` session
transitions, whether they are calls of `nextSession` or happen in any run of
`Update` over key presses, ticks, start/stop, timeout and other messages that
holds `2n-1` "e" keys and timeout messages, the machine is in a break with
`sessionCount = n`, the long break iff `n` is a multiple of 4 and the short
break otherwise; after `2n` transitions it is back in work with
`sessionCount = n`. -/
theorem session_cycle (w s l : Duration) (lines lastID : Int) (n : Nat) (hn : 1 ≤ n)
    (odd even : List Msg)
    (hodd : odd.countP isTransition = 2 * n - 1) (heven : even.countP isTransition = 2 * n) :
    ((advance (2 * n - 1) (NewTimerModelWithOptions w s l lines lastID)).1.sessionType
        = (if 4 ∣ n then sessionType.longBreak else sessionType.shortBreak)
      ∧ (advance (2 * n - 1) (NewTimerModelWithOptions w s l lines lastID)).1.sessionCount = n)
    ∧ ((advance (2 * n) (NewTimerModelWithOptions w s l lines lastID)).1.sessionType
        = sessionType.work
      ∧ (advance (2 * n) (NewTimerModelWithOptions w s l lines lastID)).1.sessionCount = n)
    ∧ ((runUpdates (NewTimerModelWithOptions w s l lines lastID) odd).1.sessionType
        = (if 4 ∣ n then sessionType.longBreak else sessionType.shortBreak)
      ∧ (runUpdates (NewTimerModelWithOptions w s l lines lastID) odd).1.sessionCount = n)
    ∧ ((runUpdates (NewTimerModelWithOptions w s l lines lastID) even).1.sessionType
        = sessionType.work
      ∧ (runUpdates (NewTimerModelWithOptions w s l lines lastID) even).1.sessionCount = n) := by
  have h0 : (NewTimerModelWithOptions w s l lines lastID).1.session = (sessionType.work, 0) := rfl
  have a1 := advance_session (2 * n - 1) (NewTimerModelWithOptions w s l lines lastID)
  have a2 := advance_session (2 * n) (NewTimerModelWithOptions w s l lines lastID)
  have r1 := runUpdates_session odd (NewTimerModelWithOptions w s l lines lastID)
  have r2 := runUpdates_session even (NewTimerModelWithOptions w s l lines lastID)
  rw [h0, sessionStep_iterate_odd n hn] at a1
  rw [h0, sessionStep_iterate_even n] at a2
  rw [h0, hodd, sessionStep_iterate_odd n hn] at r1
  rw [h0, heven, sessionStep_iterate_even n] at r2
  simp only [TimerModel.session, Prod.mk.injEq, breakAfter] at a1 a2 r1 r2
  exact ⟨a1, a2, r1, r2⟩

/-- C3 at `n = 4`, on a message sequence that mixes start keys, start messages,
ticks, a reset and a window size with timeout messages and "e" keys: after the
seventh transition the
machine is in the fourth break, a long break with `sessionCount = 4`; after the
eighth it is back in work with `sessionCount = 4`. -/
theorem session_cycle_witness :
    1 ≤ 4
    ∧ List.countP isTransition
        [Msg.key " ", Msg.startStop 1 true, Msg.tick 1 false 0, Msg.timeout 1,
          Msg.startStop 2 true, Msg.tick 2 false 0, Msg.key "e", Msg.key " ",
          Msg.startStop 3 true, Msg.timeout 3, Msg.startStop 4 true, Msg.key "r",
          Msg.key "e", Msg.windowSize 80 24, Msg.timeout 6, Msg.startStop 7 true,
          Msg.key "e", Msg.timeout 8] = 2 * 4 - 1
    ∧ List.countP isTransition
        [Msg.key " ", Msg.startStop 1 true, Msg.tick 1 false 0, Msg.timeout 1,
          Msg.startStop 2 true, Msg.tick 2 false 0, Msg.key "e", Msg.key " ",
          Msg.startStop 3 true, Msg.timeout 3, Msg.startStop 4 true, Msg.key "r",
          Msg.key "e", Msg.windowSize 80 24, Msg.timeout 6, Msg.startStop 7 true,
          Msg.key "e", Msg.timeout 8, Msg.startStop 9 true, Msg.tick 9 false 0,
          Msg.key "e"] = 2 * 4
    ∧ ((advance (2 * 4 - 1) (NewTimerModelWithOptions (25 * Minute) (5 * Minute) (15 * Minute)
          5 0)).1.sessionType
        = (if 4 ∣ 4 then sessionType.longBreak else sessionType.shortBreak)
      ∧ (advance (2 * 4 - 1) (NewTimerModelWithOptions (25 * Minute) (5 * Minute) (15 * Minute)
          5 0)).1.sessionCount = (4 : Nat))
    ∧ ((advance (2 * 4) (NewTimerModelWithOptions (25 * Minute) (5 * Minute) (15 * Minute)
          5 0)).1.sessionType = sessionType.work
      ∧ (advance (2 * 4) (NewTimerModelWithOptions (25 * Minute) (5 * Minute) (15 * Minute)
          5 0)).1.sessionCount = (4 : Nat))
    ∧ ((runUpdates (NewTimerModelWithOptions (25 * Minute) (5 * Minute) (15 * Minute) 5 0)
          [Msg.key " ", Msg.startStop 1 true, Msg.tick 1 false 0, Msg.timeout 1,
            Msg.startStop 2 true, Msg.tick 2 false 0, Msg.key "e", Msg.key " ",
            Msg.startStop 3 true, Msg.timeout 3, Msg.startStop 4 true, Msg.key "r",
            Msg.key "e", Msg.windowSize 80 24, Msg.timeout 6, Msg.startStop 7 true,
            Msg.key "e", Msg.timeout 8]).1.sessionType
        = (if 4 ∣ 4 then sessionType.longBreak else sessionType.shortBreak)
      ∧ (runUpdates (NewTimerModelWithOptions (25 * Minute) (5 * Minute) (15 * Minute) 5 0)
          [Msg.key " ", Msg.startStop 1 true, Msg.tick 1 false 0, Msg.timeout 1,
            Msg.startStop 2 true, Msg.tick 2 false 0, Msg.key "e", Msg.key " ",
            Msg.startStop 3 true, Msg.timeout 3, Msg.startStop 4 true, Msg.key "r",
            Msg.key "e", Msg.windowSize 80 24, Msg.timeout 6, Msg.startStop 7 true,
            Msg.key "e", Msg.timeout 8]).1.sessionCount = (4 : Nat))
    ∧ ((runUpdates (NewTimerModelWithOptions (25 * Minute) (5 * Minute) (15 * Minute) 5 0)
          [Msg.key " ", Msg.startStop 1 true, Msg.tick 1 false 0, Msg.timeout 1,
            Msg.startStop 2 true, Msg.tick 2 false 0, Msg.key "e", Msg.key " ",
            Msg.startStop 3 true, Msg.timeout 3, Msg.startStop 4 true, Msg.key "r",
            Msg.key "e", Msg.windowSize 80 24, Msg.timeout 6, Msg.startStop 7 true,
            Msg.key "e", Msg.timeout 8, Msg.startStop 9 true, Msg.tick 9 false 0,
            Msg.key "e"]).1.sessionType = sessionType.work
      ∧ (runUpdates (NewTimerModelWithOptions (25 * Minute) (5 * Minute) (15 * Minute) 5 0)
          [Msg.key " ", Msg.startStop 1 true, Msg.tick 1 false 0, Msg.timeout 1,
            Msg.startStop 2 true, Msg.tick 2 false 0, Msg.key "e", Msg.key " ",
            Msg.startStop 3 true, Msg.timeout 3, Msg.startStop 4 true, Msg.key "r",
            Msg.key "e", Msg.windowSize 80 24, Msg.timeout 6, Msg.startStop 7 true,
            Msg.key "e", Msg.timeout 8, Msg.startStop 9 true, Msg.tick 9 false 0,
            Msg.key "e"]).1.sessionCount = (4 : Nat)) :=
  ⟨by decide, by decide, by decide,
    session_cycle (25 * Minute) (5 * Minute) (15 * Minute) 5 0 4 (by decide)
      [Msg.key " ", Msg.startStop 1 true, Msg.tick 1 false 0, Msg.timeout 1,
        Msg.startStop 2 true, Msg.tick 2 false 0, Msg.key "e", Msg.key " ",
        Msg.startStop 3 true, Msg.timeout 3, Msg.startStop 4 true, Msg.key "r",
        Msg.key "e", Msg.windowSize 80 24, Msg.timeout 6, Msg.startStop 7 true,
        Msg.key "e", Msg.timeout 8]
      [Msg.key " ", Msg.startStop 1 true, Msg.tick 1 false 0, Msg.timeout 1,
        Msg.startStop 2 true, Msg.tick 2 false 0, Msg.key "e", Msg.key " ",
        Msg.startStop 3 true, Msg.timeout 3, Msg.startStop 4 true, Msg.key "r",
        Msg.key "e", Msg.windowSize 80 24, Msg.timeout 6, Msg.startStop 7 true,
        Msg.key "e", Msg.timeout 8, Msg.startStop 9 true, Msg.tick 9 false 0,
        Msg.key "e"]
      (by decide) (by decide)⟩

/-! ## Rounding to the nearest integer -/

namespace Float64

theorem roundHalfEven_floor_le (t : ℚ) : ⌊t⌋ ≤ roundHalfEven t := by
  unfold roundHalfEven
  simp only
  split_ifs <;> omega

theorem roundHalfEven_le_floor_succ (t : ℚ) : roundHalfEven t ≤ ⌊t⌋ + 1 := by
  unfold roundHalfEven
  simp only
  split_ifs <;> omega

theorem roundHalfEven_intCast (n : Int) : roundHalfEven (n : ℚ) = n := by
  unfold roundHalfEven
  simp

theorem roundHalfEven_mono {t u : ℚ} (h : t ≤ u) : roundHalfEven t ≤ roundHalfEven u := by
  have hf : ⌊t⌋ ≤ ⌊u⌋ := Int.floor_mono h
  rcases lt_or_eq_of_le hf with hlt | heq
  · calc roundHalfEven t ≤ ⌊t⌋ + 1 := roundHalfEven_le_floor_succ t
      _ ≤ ⌊u⌋ := hlt
      _ ≤ roundHalfEven u := roundHalfEven_floor_le u
  · have hfr : t - ⌊t⌋ ≤ u - ⌊u⌋ := by rw [heq]; linarith
    unfold roundHalfEven
    simp only
    rw [heq]
    split_ifs <;> first | omega | (exfalso; linarith)

theorem roundHalfEven_le_of_le {t : ℚ} {n : Int} (h : t ≤ n) : roundHalfEven t ≤ n := by
  have := roundHalfEven_mono h
  rwa [roundHalfEven_intCast] at this

theorem roundHalfEven_ge_of_ge {t : ℚ} {n : Int} (h : (n : ℚ) ≤ t) : n ≤ roundHalfEven t := by
  have := roundHalfEven_mono h
  rwa [roundHalfEven_intCast] at this

theorem roundHalfEven_le_of_lt_half {t : ℚ} {n : Int} (h : t < n + 1 / 2) :
    roundHalfEven t ≤ n := by
  have hfl : ⌊t⌋ ≤ n := by
    have h1 : t < ((n + 1 : Int) : ℚ) := by push_cast; linarith
    have := Int.floor_lt.mpr h1
    omega
  rcases lt_or_eq_of_le hfl with hlt | heq
  · have := roundHalfEven_le_floor_succ t
    omega
  · have hlt : t - ⌊t⌋ < 1 / 2 := by rw [heq]; linarith
    unfold roundHalfEven
    simp only [hlt, if_true]
    omega

theorem roundHalfEven_eq_of_abs_lt {t : ℚ} {n : Int} (h : |t - n| < 1 / 2) :
    roundHalfEven t = n := by
  rw [abs_lt] at h
  apply le_antisymm
  · exact roundHalfEven_le_of_lt_half (by linarith)
  · by_contra hc
    have hc2 : roundHalfEven t ≤ n - 1 := by omega
    have hfl : ⌊t⌋ ≤ n - 1 := le_trans (roundHalfEven_floor_le t) hc2
    have hfl2 : (n : ℚ) - 1 ≤ ⌊t⌋ := by
      have : ((n - 1 : Int) : ℚ) ≤ t := by push_cast; linarith
      have := Int.le_floor.mpr this
      exact_mod_cast this
    have heq : ⌊t⌋ = n - 1 := by
      have : n - 1 ≤ ⌊t⌋ := by exact_mod_cast hfl2
      omega
    have hgt : 1 / 2 < t - ⌊t⌋ := by rw [heq]; push_cast; linarith
    have hnlt : ¬ (t - ⌊t⌋ < 1 / 2) := by linarith
    have : roundHalfEven t = ⌊t⌋ + 1 := by
      unfold roundHalfEven
      simp only [hnlt, hgt, if_true, if_false]
    omega

end Float64

/-! ## Rounding to `float64` -/

namespace Float64

theorem two_zpow_pos (e : Int) : (0 : ℚ) < 2 ^ e := zpow_pos (by norm_num) e

theorem log_bounds {x : ℚ} (hx : 0 < x) :
    (2 : ℚ) ^ Int.log 2 x ≤ x ∧ x < (2 : ℚ) ^ (Int.log 2 x + 1) := by
  have h1 := Int.zpow_log_le_self (b := 2) (by norm_num) hx
  have h2 := Int.lt_zpow_succ_log_self (b := 2) (by norm_num) x
  exact ⟨by exact_mod_cast h1, by exact_mod_cast h2⟩

theorem log_eq_of_bounds {x : ℚ} {e : Int} (h1 : (2 : ℚ) ^ e ≤ x) (h2 : x < (2 : ℚ) ^ (e + 1)) :
    Int.log 2 x = e := by
  have hx : 0 < x := lt_of_lt_of_le (two_zpow_pos e) h1
  have a : e ≤ Int.log 2 x :=
    (Int.zpow_le_iff_le_log (b := 2) (by norm_num) hx).mp (by exact_mod_cast h1)
  have b : Int.log 2 x < e + 1 :=
    (Int.lt_zpow_iff_log_lt (b := 2) (by norm_num) hx).mp (by exact_mod_cast h2)
  omega

theorem roundMag_of_log {x : ℚ} {e : Int} (h : Int.log 2 x = e) :
    roundMag x = roundHalfEven (x / 2 ^ (e - 52)) * 2 ^ (e - 52) := by
  simp only [roundMag, h]

theorem scaled_bounds {x : ℚ} (hx : 0 < x) :
    (2 : ℚ) ^ (52 : Nat) ≤ x / 2 ^ (Int.log 2 x - 52)
      ∧ x / 2 ^ (Int.log 2 x - 52) < (2 : ℚ) ^ (53 : Nat) := by
  obtain ⟨h1, h2⟩ := log_bounds hx
  have hu := two_zpow_pos (Int.log 2 x - 52)
  have e1 : (2 : ℚ) ^ Int.log 2 x = 2 ^ (52 : Nat) * 2 ^ (Int.log 2 x - 52) := by
    rw [← zpow_natCast, ← zpow_add₀ (by norm_num : (2 : ℚ) ≠ 0)]
    congr 1
    omega
  have e2 : (2 : ℚ) ^ (Int.log 2 x + 1) = 2 ^ (53 : Nat) * 2 ^ (Int.log 2 x - 52) := by
    rw [← zpow_natCast, ← zpow_add₀ (by norm_num : (2 : ℚ) ≠ 0)]
    congr 1
    omega
  constructor
  · rw [le_div_iff₀ hu, ← e1]
    exact h1
  · rw [div_lt_iff₀ hu, ← e2]
    exact h2

theorem roundMag_zero : roundMag 0 = 0 := by
  simp [roundMag, roundHalfEven]

theorem roundMag_ge {x : ℚ} (hx : 0 < x) : (2 : ℚ) ^ Int.log 2 x ≤ roundMag x := by
  obtain ⟨h1, -⟩ := scaled_bounds hx
  have hu := two_zpow_pos (Int.log 2 x - 52)
  have hr : ((2 ^ (52 : Nat) : Int) : ℚ) ≤ x / 2 ^ (Int.log 2 x - 52) := by
    push_cast
    exact h1
  have := roundHalfEven_ge_of_ge hr
  have e1 : (2 : ℚ) ^ Int.log 2 x = 2 ^ (52 : Nat) * 2 ^ (Int.log 2 x - 52) := by
    rw [← zpow_natCast, ← zpow_add₀ (by norm_num : (2 : ℚ) ≠ 0)]
    congr 1
    omega
  rw [e1, roundMag_of_log rfl]
  apply mul_le_mul_of_nonneg_right _ (le_of_lt hu)
  exact_mod_cast this

theorem roundMag_le {x : ℚ} (hx : 0 < x) : roundMag x ≤ (2 : ℚ) ^ (Int.log 2 x + 1) := by
  obtain ⟨-, h2⟩ := scaled_bounds hx
  have hu := two_zpow_pos (Int.log 2 x - 52)
  have hr : x / 2 ^ (Int.log 2 x - 52) ≤ ((2 ^ (53 : Nat) : Int) : ℚ) := by
    push_cast
    exact le_of_lt h2
  have := roundHalfEven_le_of_le hr
  have e2 : (2 : ℚ) ^ (Int.log 2 x + 1) = 2 ^ (53 : Nat) * 2 ^ (Int.log 2 x - 52) := by
    rw [← zpow_natCast, ← zpow_add₀ (by norm_num : (2 : ℚ) ≠ 0)]
    congr 1
    omega
  rw [e2, roundMag_of_log rfl]
  apply mul_le_mul_of_nonneg_right _ (le_of_lt hu)
  exact_mod_cast this

theorem roundMag_pos {x : ℚ} (hx : 0 < x) : 0 < roundMag x :=
  lt_of_lt_of_le (two_zpow_pos _) (roundMag_ge hx)

theorem roundMag_nonneg {x : ℚ} (hx : 0 ≤ x) : 0 ≤ roundMag x := by
  rcases eq_or_lt_of_le hx with h | h
  · rw [← h, roundMag_zero]
  · exact le_of_lt (roundMag_pos h)

theorem roundMag_mono {x y : ℚ} (hx : 0 ≤ x) (h : x ≤ y) : roundMag x ≤ roundMag y := by
  rcases eq_or_lt_of_le hx with h0 | hpos
  · rw [← h0, roundMag_zero]
    exact roundMag_nonneg (le_trans hx h)
  · have hy : 0 < y := lt_of_lt_of_le hpos h
    have hlog : Int.log 2 x ≤ Int.log 2 y := Int.log_mono_right hpos h
    rcases lt_or_eq_of_le hlog with hlt | heq
    · calc roundMag x ≤ (2 : ℚ) ^ (Int.log 2 x + 1) := roundMag_le hpos
        _ ≤ (2 : ℚ) ^ Int.log 2 y := zpow_le_zpow_right₀ (by norm_num) (by omega)
        _ ≤ roundMag y := roundMag_ge hy
    · rw [roundMag_of_log rfl, roundMag_of_log rfl, heq]
      have hu := two_zpow_pos (Int.log 2 y - 52)
      apply mul_le_mul_of_nonneg_right _ (le_of_lt hu)
      have : x / 2 ^ (Int.log 2 y - 52) ≤ y / 2 ^ (Int.log 2 y - 52) :=
        div_le_div_of_nonneg_right h (le_of_lt hu)
      exact_mod_cast roundHalfEven_mono this

theorem round_of_nonneg {x : ℚ} (hx : 0 ≤ x) : round x = roundMag x := by
  simp [round, hx]

theorem round_of_neg {x : ℚ} (hx : x < 0) : round x = -roundMag (-x) := by
  simp [round, not_le.mpr hx]

theorem round_zero : round 0 = 0 := by
  rw [round_of_nonneg (le_refl _), roundMag_zero]

theorem round_nonneg {x : ℚ} (hx : 0 ≤ x) : 0 ≤ round x := by
  rw [round_of_nonneg hx]
  exact roundMag_nonneg hx

theorem round_nonpos {x : ℚ} (hx : x ≤ 0) : round x ≤ 0 := by
  rcases eq_or_lt_of_le hx with h | h
  · rw [h, round_zero]
  · rw [round_of_neg h]
    have := roundMag_nonneg (x := -x) (by linarith)
    linarith

theorem round_mono {x y : ℚ} (h : x ≤ y) : round x ≤ round y := by
  by_cases hx : 0 ≤ x
  · rw [round_of_nonneg hx, round_of_nonneg (le_trans hx h)]
    exact roundMag_mono hx h
  · have hx' : x < 0 := not_le.mp hx
    by_cases hy : 0 ≤ y
    · exact le_trans (round_nonpos (le_of_lt hx')) (round_nonneg hy)
    · have hy' : y < 0 := not_le.mp hy
      rw [round_of_neg hx', round_of_neg hy']
      have := roundMag_mono (x := -y) (y := -x) (by linarith) (by linarith)
      linarith

theorem roundMag_exact {x : ℚ} (k : Int)
    (hk : x = k * 2 ^ (Int.log 2 x - 52)) : roundMag x = x := by
  have hu := two_zpow_pos (Int.log 2 x - 52)
  have hs : x / 2 ^ (Int.log 2 x - 52) = k := by
    rw [div_eq_iff (ne_of_gt hu)]
    exact hk
  rw [roundMag_of_log rfl, hs, roundHalfEven_intCast]
  exact hk.symm

theorem roundMag_natCast (n : Nat) (h : n ≤ 2 ^ 53) : roundMag (n : ℚ) = n := by
  rcases Nat.eq_zero_or_pos n with h0 | hpos
  · subst h0
    simpa using roundMag_zero
  have hx : (0 : ℚ) < n := by exact_mod_cast hpos
  have hlog : Int.log 2 (n : ℚ) = Nat.log 2 n := Int.log_natCast 2 n
  have hle : Nat.log 2 n ≤ 53 := by
    have : Nat.log 2 n ≤ Nat.log 2 (2 ^ 53) := Nat.log_mono_right h
    rwa [Nat.log_pow (by norm_num)] at this
  rcases Nat.lt_or_ge (Nat.log 2 n) 53 with hlt | hge
  · apply roundMag_exact ((n * 2 ^ (52 - Nat.log 2 n) : Nat) : Int)
    rw [hlog]
    have e : ((Nat.log 2 n : Int) - 52) = -((52 - Nat.log 2 n : Nat) : Int) := by omega
    rw [e, zpow_neg, zpow_natCast]
    push_cast
    field_simp
  · have h53 : Nat.log 2 n = 53 := le_antisymm hle hge
    have hn : n = 2 ^ 53 := by
      apply le_antisymm h
      have := Nat.pow_log_le_self 2 (Nat.pos_iff_ne_zero.mp hpos)
      rwa [h53] at this
    apply roundMag_exact ((2 ^ 52 : Nat) : Int)
    rw [hlog, h53, hn]
    norm_num

theorem round_intCast (n : Int) (h : |n| ≤ 2 ^ 53) : round (n : ℚ) = n := by
  rw [abs_le] at h
  by_cases hn : 0 ≤ n
  · obtain ⟨k, rfl⟩ := Int.eq_ofNat_of_zero_le hn
    rw [round_of_nonneg (by exact_mod_cast hn)]
    have : k ≤ 2 ^ 53 := by exact_mod_cast h.2
    exact_mod_cast roundMag_natCast k this
  · have hneg : n < 0 := not_le.mp hn
    obtain ⟨k, hk⟩ := Int.eq_ofNat_of_zero_le (a := -n) (by omega)
    rw [round_of_neg (by exact_mod_cast hneg)]
    have hk2 : k ≤ 2 ^ 53 := by
      have : (k : Int) ≤ 2 ^ 53 := by omega
      exact_mod_cast this
    have e : (-(n : ℚ)) = (k : ℚ) := by
      have : ((-n : Int) : ℚ) = ((k : Int) : ℚ) := by rw [hk]
      push_cast at this
      exact this
    rw [e, roundMag_natCast k hk2, ← e]
    ring

end Float64

/-! ## The grid of the sand timer -/

theorem mapM_option_eq_map {α β : Type} (f : α → Option β) (g : α → β) (l : List α)
    (h : ∀ x ∈ l, f x = some (g x)) : l.mapM f = some (l.map g) := by
  induction l with
  | nil => rfl
  | cons a l ih =>
    rw [List.mapM_cons, h a (List.mem_cons_self _ _),
      ih (fun x hx => h x (List.mem_cons_of_mem _ hx))]
    rfl

theorem interpolateColor_gradient (p : Float64) :
    ∃ color, interpolateColor "#FF7CCB" "#FDFF8C" p = some color := by
  have h1 : parseHexColor "#FF7CCB" = some (255, 124, 203) := by decide
  have h2 : parseHexColor "#FDFF8C" = some (253, 255, 140) := by decide
  simp only [interpolateColor, h1, h2]
  exact ⟨_, rfl⟩

/-- The grid `getSandTimer` returns for a width of at least 10, cell by cell:
the colour is `interpolateColor` at the cell's fraction
`float64(globalCharPos) / float64(totalChars - 1)` and the glyph is the one the
comparison of the elapsed seconds with the cell's threshold selects. -/
theorem getSandTimer_grid_colors (m : TimerModel) (width : Int) (hw : 10 ≤ width) :
    m.getSandTimer width = some ((List.range m.progressLines.toNat).map fun r =>
      (List.range width.toNat).map fun c =>
        { color := (interpolateColor "#FF7CCB" "#FDFF8C"
            (Float64.div (Float64.ofInt (globalCharPos width r c))
              (Float64.ofInt (m.progressLines * width - 1)))).getD ""
          glyph := if Float64.gt (Float64.ofInt m.totalSecondsElapsed)
              (m.timeThreshold width r c) then drained else filled }) := by
  have hlt : ¬ width < 10 := not_lt.mpr hw
  simp only [TimerModel.getSandTimer, hlt, if_false]
  apply mapM_option_eq_map
  intro r _
  apply mapM_option_eq_map
  intro c _
  obtain ⟨color, hc⟩ := interpolateColor_gradient
    (Float64.div (Float64.ofInt (globalCharPos width r c))
      (Float64.ofInt (m.progressLines * width - 1)))
  simp only [globalCharPos] at hc
  simp only [TimerModel.timeThreshold, TimerModel.totalSecondsElapsed,
    TimerModel.totalSessionSeconds, globalCharPos, hc, Option.getD_some]
  split <;> rfl

/-- The grid `getSandTimer` returns for a width of at least 10: every line and
every column is present, and each cell carries the glyph the comparison of the
elapsed seconds with the cell's threshold selects. -/
theorem getSandTimer_grid (m : TimerModel) (width : Int) (hw : 10 ≤ width) :
    ∃ colorOf : Nat → Nat → String,
      m.getSandTimer width = some ((List.range m.progressLines.toNat).map fun r =>
        (List.range width.toNat).map fun c =>
          { color := colorOf r c
            glyph := if Float64.gt (Float64.ofInt m.totalSecondsElapsed)
                (m.timeThreshold width r c) then drained else filled }) :=
  ⟨_, getSandTimer_grid_colors m width hw⟩

/-! ## Conversions and whole seconds -/

namespace Float64

theorem roundHalfEven_le_add_half (t : ℚ) : (roundHalfEven t : ℚ) ≤ t + 1 / 2 := by
  have hfl : (⌊t⌋ : ℚ) ≤ t := Int.floor_le t
  unfold roundHalfEven
  simp only
  split_ifs with h1 h2 h3
  · linarith
  · push_cast; linarith
  · linarith
  · push_cast; linarith

/-- Relative error of rounding: the result exceeds a nonnegative argument by at
most the fraction `2^-53` of it. -/
theorem round_le_mul {x : ℚ} (hx : 0 ≤ x) : round x ≤ x * (1 + 2 ^ (-53 : Int)) := by
  rw [round_of_nonneg hx]
  rcases eq_or_lt_of_le hx with h0 | hpos
  · rw [← h0, roundMag_zero]; simp
  · obtain ⟨h1, -⟩ := log_bounds hpos
    have hu := two_zpow_pos (Int.log 2 x - 52)
    have hr := roundHalfEven_le_add_half (x / 2 ^ (Int.log 2 x - 52))
    rw [roundMag_of_log rfl]
    have e1 : (2 : ℚ) ^ (Int.log 2 x - 52) * (1 / 2) = 2 ^ Int.log 2 x * 2 ^ (-53 : Int) := by
      rw [← zpow_add₀ (by norm_num : (2 : ℚ) ≠ 0)]
      have : (1 / 2 : ℚ) = 2 ^ (-1 : Int) := by norm_num
      rw [this, ← zpow_add₀ (by norm_num : (2 : ℚ) ≠ 0)]
      congr 1
      omega
    calc (roundHalfEven (x / 2 ^ (Int.log 2 x - 52)) : ℚ) * 2 ^ (Int.log 2 x - 52)
        ≤ (x / 2 ^ (Int.log 2 x - 52) + 1 / 2) * 2 ^ (Int.log 2 x - 52) :=
          mul_le_mul_of_nonneg_right hr (le_of_lt hu)
      _ = x + 2 ^ (Int.log 2 x - 52) * (1 / 2) := by
          rw [add_mul, div_mul_cancel₀ x (ne_of_gt hu)]
          ring
      _ = x + 2 ^ Int.log 2 x * 2 ^ (-53 : Int) := by rw [e1]
      _ ≤ x + x * 2 ^ (-53 : Int) := by
          have := mul_le_mul_of_nonneg_right h1 (le_of_lt (two_zpow_pos (-53)))
          linarith
      _ = x * (1 + 2 ^ (-53 : Int)) := by ring

/-- Evaluation of a rounding from the binade and the nearest multiple. -/
theorem round_eq_of {x : ℚ} (e n : Int) (h1 : (2 : ℚ) ^ e ≤ x) (h2 : x < (2 : ℚ) ^ (e + 1))
    (h3 : |x / 2 ^ (e - 52) - n| < 1 / 2) : round x = n * 2 ^ (e - 52) := by
  have hx : 0 < x := lt_of_lt_of_le (two_zpow_pos e) h1
  rw [round_of_nonneg (le_of_lt hx), roundMag_of_log (log_eq_of_bounds h1 h2),
    roundHalfEven_eq_of_abs_lt h3]

theorem ofInt_exact (n : Int) (h : |n| ≤ 2 ^ 53) : ofInt n = n :=
  round_intCast n h

theorem ofInt_nonneg {n : Int} (h : 0 ≤ n) : 0 ≤ ofInt n :=
  round_nonneg (by exact_mod_cast h)

theorem ofInt_mono {a b : Int} (h : a ≤ b) : ofInt a ≤ ofInt b :=
  round_mono (by exact_mod_cast h)

theorem toInt_intCast (n : Int) : toInt (n : ℚ) = n := by
  unfold toInt
  split <;> simp

theorem toInt_mono {a b : ℚ} (h : a ≤ b) : toInt a ≤ toInt b := by
  unfold toInt
  split_ifs with ha hb hb
  · exact Int.floor_mono h
  · exact absurd (le_trans ha h) hb
  · have h1 : ⌈a⌉ ≤ 0 := Int.ceil_le.mpr (by push_cast; linarith)
    have h2 : 0 ≤ ⌊b⌋ := Int.floor_nonneg.mpr hb
    omega
  · exact Int.ceil_mono h

theorem toInt_nonneg {a : ℚ} (h : 0 ≤ a) : 0 ≤ toInt a := by
  have := toInt_mono h
  rwa [show toInt (0 : ℚ) = 0 from by simpa using toInt_intCast 0] at this

end Float64

open Float64

theorem Seconds_mul_Second (k : Int) (hk : |k| ≤ 2 ^ 53) :
    Duration.Seconds (k * Second) = k := by
  have hS : Second ≠ 0 := by decide
  have h1 : Int.tdiv (k * Second) Second = k := Int.mul_tdiv_cancel k hS
  have h2 : Int.tmod (k * Second) Second = 0 := Int.mul_tmod_left k Second
  simp only [Duration.Seconds, h1, h2, Float64.add, Float64.div]
  rw [ofInt_exact k hk, ofInt_exact 0 (by norm_num)]
  simp only [Int.cast_zero, zero_div, round_zero, add_zero]
  exact round_intCast k hk

theorem wholeSeconds_mul_Second (k : Int) (hk : |k| ≤ 2 ^ 53) :
    Duration.wholeSeconds (k * Second) = k := by
  rw [Duration.wholeSeconds, Seconds_mul_Second k hk, toInt_intCast]

theorem wholeSeconds_zero : Duration.wholeSeconds 0 = 0 := by
  have := wholeSeconds_mul_Second 0 (by norm_num)
  simpa using this

theorem Seconds_nonneg {d : Duration} (hd : 0 ≤ d) : 0 ≤ Duration.Seconds d := by
  have hS : (0 : Int) ≤ Second := by decide
  have h1 : 0 ≤ Int.tdiv d Second := Int.tdiv_nonneg hd hS
  have h2 : 0 ≤ Int.tmod d Second := Int.tmod_nonneg Second hd
  simp only [Duration.Seconds, Float64.add, Float64.div]
  apply round_nonneg
  apply add_nonneg (ofInt_nonneg h1)
  apply round_nonneg
  exact div_nonneg (ofInt_nonneg h2) (by norm_num)

theorem wholeSeconds_nonneg {d : Duration} (hd : 0 ≤ d) : 0 ≤ Duration.wholeSeconds d :=
  toInt_nonneg (Seconds_nonneg hd)

theorem tdiv_tmod_Second (d : Int) :
    1000000000 * Int.tdiv d Second + Int.tmod d Second = d
    ∧ (0 ≤ d → 0 ≤ Int.tmod d Second ∧ Int.tmod d Second < 1000000000)
    ∧ (d < 0 → -1000000000 < Int.tmod d Second ∧ Int.tmod d Second ≤ 0) := by
  have hS : Second = 1000000000 := rfl
  rw [hS]
  refine ⟨Int.tdiv_add_tmod d 1000000000, ?_, ?_⟩
  · intro hd
    exact ⟨Int.tmod_nonneg _ hd, Int.tmod_lt_of_pos d (by norm_num)⟩
  · intro hd
    have h1 : Int.tmod d 1000000000 = -Int.tmod (-d) 1000000000 := by
      rw [Int.tmod_def, Int.tmod_def, Int.neg_tdiv]
      ring
    have h2 := Int.tmod_nonneg 1000000000 (show 0 ≤ -d by omega)
    have h3 := Int.tmod_lt_of_pos (-d) (show (0 : Int) < 1000000000 by norm_num)
    omega

/-- The fractional part of `Duration.Seconds`, `float64(nsec)/1e9`, lies in
`[0, 1]` for a nonnegative duration and in `[-1, 0]` for a negative one. -/
theorem Seconds_frac_bounds (r : Int) :
    (0 ≤ r → r < 1000000000 →
      0 ≤ Float64.div (Float64.ofInt r) 1000000000
        ∧ Float64.div (Float64.ofInt r) 1000000000 ≤ 1)
    ∧ (-1000000000 < r → r ≤ 0 →
      -1 ≤ Float64.div (Float64.ofInt r) 1000000000
        ∧ Float64.div (Float64.ofInt r) 1000000000 ≤ 0) := by
  have one : Float64.round 1 = 1 := by
    have := round_intCast 1 (by norm_num)
    simpa using this
  have mone : Float64.round (-1) = -1 := by
    have := round_intCast (-1) (by norm_num)
    simpa using this
  constructor
  · intro h0 h1
    have hr : (0 : ℚ) ≤ r := by exact_mod_cast h0
    have hr1 : (r : ℚ) < 1000000000 := by exact_mod_cast h1
    rw [Float64.div, ofInt_exact r (by rw [abs_le]; constructor <;> omega)]
    constructor
    · exact round_nonneg (div_nonneg hr (by norm_num))
    · rw [← one]
      apply round_mono
      rw [div_le_one (by norm_num)]
      exact le_of_lt hr1
  · intro h0 h1
    have hr : (r : ℚ) ≤ 0 := by exact_mod_cast h1
    have hr1 : (-1000000000 : ℚ) < r := by exact_mod_cast h0
    rw [Float64.div, ofInt_exact r (by rw [abs_le]; constructor <;> omega)]
    constructor
    · rw [← mone]
      apply round_mono
      rw [le_div_iff₀ (by norm_num)]
      linarith
    · exact round_nonpos (div_nonpos_of_nonpos_of_nonneg hr (by norm_num))

/-- On durations whose seconds convert exactly, `int(d.Seconds())` is monotone. -/
theorem wholeSeconds_mono {d1 d2 : Int} (h : d1 ≤ d2)
    (h1 : |d1| ≤ 2 ^ 53 * 1000000000) (h2 : |d2| ≤ 2 ^ 53 * 1000000000) :
    Duration.wholeSeconds d1 ≤ Duration.wholeSeconds d2 := by
  rw [abs_le] at h1 h2
  obtain ⟨e1, p1, n1⟩ := tdiv_tmod_Second d1
  obtain ⟨e2, p2, n2⟩ := tdiv_tmod_Second d2
  apply toInt_mono
  simp only [Duration.Seconds, Float64.add]
  apply round_mono
  have q1 : |Int.tdiv d1 Second| ≤ 2 ^ 53 := by
    rw [abs_le]
    rcases le_or_lt 0 d1 with hd | hd
    · have := p1 hd
      constructor <;> omega
    · have := n1 hd
      constructor <;> omega
  have q2 : |Int.tdiv d2 Second| ≤ 2 ^ 53 := by
    rw [abs_le]
    rcases le_or_lt 0 d2 with hd | hd
    · have := p2 hd
      constructor <;> omega
    · have := n2 hd
      constructor <;> omega
  rw [ofInt_exact _ q1, ofInt_exact _ q2]
  rcases lt_or_eq_of_le (show Int.tdiv d1 Second ≤ Int.tdiv d2 Second from by
    rcases le_or_lt 0 d1 with hd | hd
    · have := p1 hd
      have := p2 (le_trans hd h)
      omega
    · have := n1 hd
      rcases le_or_lt 0 d2 with hd2 | hd2
      · have := p2 hd2
        omega
      · have := n2 hd2
        omega) with hlt | heq
  · -- a later whole second
    have hq : ((Int.tdiv d1 Second : Int) : ℚ) + 1 ≤ (Int.tdiv d2 Second : Int) := by
      exact_mod_cast hlt
    rcases le_or_lt 0 d1 with hd | hd
    · have b1 := ((Seconds_frac_bounds (Int.tmod d1 Second)).1 (p1 hd).1 (p1 hd).2).2
      have hd2 := le_trans hd h
      have b2 := ((Seconds_frac_bounds (Int.tmod d2 Second)).1 (p2 hd2).1 (p2 hd2).2).1
      linarith
    · have b1 := ((Seconds_frac_bounds (Int.tmod d1 Second)).2 (n1 hd).1 (n1 hd).2).2
      rcases le_or_lt 0 d2 with hd2 | hd2
      · have b2 := ((Seconds_frac_bounds (Int.tmod d2 Second)).1 (p2 hd2).1 (p2 hd2).2).1
        linarith
      · have b2 := ((Seconds_frac_bounds (Int.tmod d2 Second)).2 (n2 hd2).1 (n2 hd2).2).1
        linarith
  · -- the same whole second
    rw [heq]
    have hr : Int.tmod d1 Second ≤ Int.tmod d2 Second := by omega
    have : Float64.div (Float64.ofInt (Int.tmod d1 Second)) 1000000000
        ≤ Float64.div (Float64.ofInt (Int.tmod d2 Second)) 1000000000 := by
      apply round_mono
      exact div_le_div_of_nonneg_right (ofInt_mono hr) (by norm_num)
    linarith

theorem cellAt_map_range (H W : Nat) (f : Nat → Nat → Cell) (r c : Nat) :
    cellAt ((List.range H).map fun i => (List.range W).map fun j => f i j) r c
      = if r < H ∧ c < W then some (f r c) else none := by
  unfold cellAt
  by_cases hr : r < H
  · by_cases hc : c < W
    · simp [List.get?_eq_getElem?, List.getElem?_map, List.getElem?_range, hr, hc]
    · simp [List.get?_eq_getElem?, List.getElem?_map, List.getElem?_range, hr, hc]
      have : W ≤ c := not_lt.mp hc
      simp [List.getElem?_eq_none, this]
  · have : H ≤ r := not_lt.mp hr
    simp [List.get?_eq_getElem?, List.getElem?_map, hr, List.getElem?_eq_none, this]

theorem filled_ne_drained : filled ≠ drained := by decide

/-- The cell `getSandTimer` emits at line `r`, column `c`. -/
theorem getSandTimer_cell (m : TimerModel) (width : Int) (hw : 10 ≤ width) :
    ∃ (grid : List (List Cell)) (colorOf : Nat → Nat → String),
      m.getSandTimer width = some grid
      ∧ (grid.length : Int) = max m.progressLines 0
      ∧ (∀ line ∈ grid, (line.length : Int) = width)
      ∧ ∀ r c : Nat, cellAt grid r c
          = if (r : Int) < m.progressLines ∧ (c : Int) < width then
              some { color := colorOf r c
                     glyph := if Float64.gt (Float64.ofInt m.totalSecondsElapsed)
                        (m.timeThreshold width r c) then drained else filled }
            else none := by
  obtain ⟨colorOf, hg⟩ := getSandTimer_grid m width hw
  refine ⟨_, colorOf, hg, ?_, ?_, ?_⟩
  · simp only [List.length_map, List.length_range]
    rw [Int.toNat_eq_max]
  · intro line hl
    simp only [List.mem_map, List.mem_range] at hl
    obtain ⟨r, -, rfl⟩ := hl
    simp only [List.length_map, List.length_range]
    rw [Int.toNat_of_nonneg (by omega)]
  · intro r c
    have hr : r < m.progressLines.toNat ↔ (r : Int) < m.progressLines := by omega
    have hc : c < width.toNat ↔ (c : Int) < width := by omega
    rw [cellAt_map_range]
    simp only [hr, hc]

/-! ## Cell thresholds -/

theorem gt_iff (a b : Float64) : Float64.gt a b = true ↔ b < a := by
  simp [Float64.gt]

theorem globalCharPos_nonneg {width : Int} {r c : Nat} (hc : (c : Int) < width) :
    0 ≤ globalCharPos width r c := by
  unfold globalCharPos
  have h1 : (0 : Int) ≤ (r : Int) * width := mul_nonneg (Int.ofNat_nonneg r) (by omega)
  omega

theorem globalCharPos_le {width lines : Int} {r c : Nat} (hr : (r : Int) < lines)
    (hc : (c : Int) < width) : globalCharPos width r c ≤ lines * width - 1 := by
  unfold globalCharPos
  have h1 : (r : Int) * width ≤ (lines - 1) * width :=
    mul_le_mul_of_nonneg_right (by omega) (by omega)
  have h2 : (lines - 1) * width = lines * width - width := by ring
  omega

theorem globalCharPos_eq_last {width lines : Int} {r c : Nat} (hr : (r : Int) < lines)
    (hc : (c : Int) < width) :
    globalCharPos width r c = lines * width - 1 ↔ ((r : Int) = lines - 1 ∧ c = 0) := by
  unfold globalCharPos
  have h1 : (r : Int) * width ≤ (lines - 1) * width :=
    mul_le_mul_of_nonneg_right (by omega) (by omega)
  have h2 : (lines - 1) * width = lines * width - width := by ring
  constructor
  · intro h
    have hc0 : c = 0 := by omega
    refine ⟨?_, hc0⟩
    by_contra hne
    have h3 : (r : Int) * width ≤ (lines - 2) * width :=
      mul_le_mul_of_nonneg_right (by omega) (by omega)
    have h4 : (lines - 2) * width = lines * width - 2 * width := by ring
    omega
  · rintro ⟨h, rfl⟩
    rw [h, h2]
    simp

theorem timeThreshold_nonneg (m : TimerModel) {width : Int} {r c : Nat}
    (hH : 1 ≤ m.progressLines) (hw : 10 ≤ width) (hc : (c : Int) < width)
    (hT : 0 ≤ m.getCurrentSessionDuration) : 0 ≤ m.timeThreshold width r c := by
  unfold TimerModel.timeThreshold Float64.mul Float64.div
  have hD : (0 : Int) ≤ m.progressLines * width - 1 := by
    have : (1 : Int) * 10 ≤ m.progressLines * width :=
      mul_le_mul hH hw (by norm_num) (by omega)
    omega
  apply round_nonneg
  apply mul_nonneg
  · apply round_nonneg
    exact div_nonneg (ofInt_nonneg (globalCharPos_nonneg hc)) (ofInt_nonneg hD)
  · exact ofInt_nonneg (wholeSeconds_nonneg hT)

/-- C4, as the code has it: for `W ≥ 10`, `H ≥ 1`, a line `r < H` and a column
`c < W`, the cell `getSandTimer(W)` emits there is filled iff
`float64(elapsedSeconds) ≤ t` and drained otherwise, where
`t = (float64(g) / float64(H*W - 1)) * float64(totalSessionSeconds)` with the
quotient and the product each rounded to `float64`, and `g = r*W + (W-1-c)` is
the cell's global index: 0 at the top right, `H*W - 1` at the bottom left. -/
theorem sandTimer_cell_threshold (m : TimerModel) (W : Int) (r c : Nat)
    (hW : 10 ≤ W) (hH : 1 ≤ m.progressLines)
    (hr : (r : Int) < m.progressLines) (hc : (c : Int) < W) :
    ∃ (grid : List (List Cell)) (cell : Cell),
      m.getSandTimer W = some grid ∧ cellAt grid r c = some cell
      ∧ (cell.glyph = filled ↔
          Float64.ofInt m.totalSecondsElapsed ≤ m.timeThreshold W r c)
      ∧ (cell.glyph = drained ↔
          ¬ Float64.ofInt m.totalSecondsElapsed ≤ m.timeThreshold W r c)
      ∧ m.timeThreshold W r c
          = Float64.mul
              (Float64.div (Float64.ofInt ((r : Int) * W + (W - 1 - (c : Int))))
                (Float64.ofInt (m.progressLines * W - 1)))
              (Float64.ofInt (Duration.wholeSeconds m.getCurrentSessionDuration))
      ∧ m.totalSecondsElapsed
          = Duration.wholeSeconds (m.getCurrentSessionDuration - m.timer.Timeout)
      ∧ globalCharPos W 0 (W.toNat - 1) = 0
      ∧ globalCharPos W (m.progressLines.toNat - 1) 0 = m.progressLines * W - 1 := by
  obtain ⟨grid, colorOf, hg, -, -, hcell⟩ := getSandTimer_cell m W hW
  have hrc := hcell r c
  rw [if_pos ⟨hr, hc⟩] at hrc
  refine ⟨grid, _, hg, hrc, ?_, ?_, rfl, rfl, ?_, ?_⟩
  · by_cases h : Float64.gt (Float64.ofInt m.totalSecondsElapsed) (m.timeThreshold W r c) = true
    · have hlt := (gt_iff _ _).mp h
      rw [if_pos h]
      constructor
      · intro hfd
        exact absurd hfd.symm filled_ne_drained
      · intro hle
        exact absurd hlt (not_lt.mpr hle)
    · have hle : Float64.ofInt m.totalSecondsElapsed ≤ m.timeThreshold W r c :=
        not_lt.mp (fun hlt => h ((gt_iff _ _).mpr hlt))
      rw [if_neg h]
      exact ⟨fun _ => hle, fun _ => rfl⟩
  · by_cases h : Float64.gt (Float64.ofInt m.totalSecondsElapsed) (m.timeThreshold W r c) = true
    · have hlt := (gt_iff _ _).mp h
      rw [if_pos h]
      exact ⟨fun _ => not_le.mpr hlt, fun _ => rfl⟩
    · have hle : Float64.ofInt m.totalSecondsElapsed ≤ m.timeThreshold W r c :=
        not_lt.mp (fun hlt => h ((gt_iff _ _).mpr hlt))
      rw [if_neg h]
      constructor
      · intro hfd
        exact absurd hfd filled_ne_drained
      · intro hn
        exact absurd hle hn
  · unfold globalCharPos
    have : ((W.toNat - 1 : Nat) : Int) = W - 1 := by omega
    rw [this]
    simp
  · unfold globalCharPos
    have : ((m.progressLines.toNat - 1 : Nat) : Int) = m.progressLines - 1 := by omega
    rw [this]
    push_cast
    ring

/-- C6: for `W ≥ 10`, `H ≥ 1` and a session duration `total > 0`, when
`remaining = total` (nothing has elapsed) `getSandTimer(W)` returns `H` lines of
`W` cells and every cell is filled. -/
theorem sandTimer_all_filled_at_start (m : TimerModel) (W : Int)
    (hW : 10 ≤ W) (hH : 1 ≤ m.progressLines)
    (htotal : 0 < m.getCurrentSessionDuration)
    (hrem : m.timer.Timeout = m.getCurrentSessionDuration) :
    ∃ grid : List (List Cell),
      m.getSandTimer W = some grid
      ∧ (grid.length : Int) = m.progressLines
      ∧ (∀ line ∈ grid, (line.length : Int) = W ∧ ∀ cell ∈ line, cell.glyph = filled)
      ∧ ∀ r c : Nat, (r : Int) < m.progressLines → (c : Int) < W →
          ∃ color, cellAt grid r c = some { color := color, glyph := filled } := by
  obtain ⟨colorOf, hg⟩ := getSandTimer_grid m W hW
  obtain ⟨grid, colorOf2, hg2, hlen, hline, hcell⟩ := getSandTimer_cell m W hW
  have he : m.totalSecondsElapsed = 0 := by
    rw [TimerModel.totalSecondsElapsed, hrem, sub_self, wholeSeconds_zero]
  have hz : Float64.ofInt 0 = 0 := by
    have := ofInt_exact 0 (by norm_num)
    simpa using this
  have hglyph : ∀ r c : Nat, (c : Int) < W →
      (if Float64.gt (Float64.ofInt m.totalSecondsElapsed) (m.timeThreshold W r c)
        then drained else filled) = filled := by
    intro r c hc
    have hnn := timeThreshold_nonneg m (r := r) hH hW hc (le_of_lt htotal)
    have : ¬ Float64.gt (Float64.ofInt m.totalSecondsElapsed) (m.timeThreshold W r c) = true := by
      rw [gt_iff, he, hz]
      exact not_lt.mpr hnn
    rw [if_neg this]
  refine ⟨grid, hg2, ?_, ?_, ?_⟩
  · rw [hlen]
    exact max_eq_left (by omega)
  · intro line hl
    refine ⟨hline line hl, ?_⟩
    have hgrid : grid = _ := Option.some.inj (hg2.symm.trans hg)
    rw [hgrid] at hl
    simp only [List.mem_map, List.mem_range] at hl
    obtain ⟨r, -, rfl⟩ := hl
    intro cell hcell
    simp only [List.mem_map, List.mem_range] at hcell
    obtain ⟨c, hc, rfl⟩ := hcell
    exact hglyph r c (by omega)
  · intro r c hr hc
    refine ⟨colorOf2 r c, ?_⟩
    rw [hcell r c, if_pos ⟨hr, hc⟩, hglyph r c hc]

/-! ## The end of a session -/

theorem round_one : Float64.round 1 = 1 := by
  have := round_intCast 1 (by norm_num)
  simpa using this

/-- The largest `float64` below one is `1 - 2^-53`: a quotient `g / D` with
`0 ≤ g < D ≤ 2^53` rounds to at most that. -/
theorem div_lt_one_bound {g D : Int} (hg : 0 ≤ g) (hgD : g < D) (hD : D ≤ 2 ^ 53) :
    Float64.round ((g : ℚ) / D) ≤ 1 - 2 ^ (-53 : Int) := by
  have hDpos : (0 : ℚ) < D := by exact_mod_cast (lt_of_le_of_lt hg hgD)
  have hy : Float64.round (1 - 2 ^ (-53 : Int)) = 1 - 2 ^ (-53 : Int) := by
    have hlog : Int.log 2 (1 - 2 ^ (-53 : Int) : ℚ) = -1 :=
      log_eq_of_bounds (by norm_num) (by norm_num)
    rw [round_of_nonneg (by norm_num)]
    apply roundMag_exact (2 ^ 53 - 1)
    rw [hlog]
    norm_num
  rw [← hy]
  apply round_mono
  rw [div_le_iff₀ hDpos]
  have h1 : (g : ℚ) ≤ D - 1 := by
    have : g ≤ D - 1 := by omega
    exact_mod_cast this
  have h2 : (D : ℚ) ≤ 2 ^ 53 := by exact_mod_cast hD
  have h3 : (2 : ℚ) ^ (-53 : Int) * D ≤ 1 := by
    have : (2 : ℚ) ^ (-53 : Int) * 2 ^ 53 = 1 := by norm_num
    have := mul_le_mul_of_nonneg_left h2 (le_of_lt (two_zpow_pos (-53)))
    linarith
  linarith

/-- The threshold of every cell but the last stays below the session's seconds. -/
theorem threshold_lt {g D T : Int} (hg : 0 ≤ g) (hgD : g < D) (hD : D ≤ 2 ^ 53)
    (hT1 : 1 ≤ T) (hT : T ≤ 2 ^ 53) :
    Float64.mul (Float64.div (Float64.ofInt g) (Float64.ofInt D)) (Float64.ofInt T) < T := by
  have hDabs : |D| ≤ 2 ^ 53 := by rw [abs_le]; constructor <;> omega
  have hgabs : |g| ≤ 2 ^ 53 := by rw [abs_le]; constructor <;> omega
  have hTabs : |T| ≤ 2 ^ 53 := by rw [abs_le]; constructor <;> omega
  rw [Float64.mul, Float64.div, ofInt_exact g hgabs, ofInt_exact D hDabs, ofInt_exact T hTabs]
  have hDpos : (0 : ℚ) < D := by exact_mod_cast (lt_of_le_of_lt hg hgD)
  have hTpos : (0 : ℚ) < T := by exact_mod_cast (lt_of_lt_of_le zero_lt_one hT1)
  have hc0 : 0 ≤ Float64.round ((g : ℚ) / D) :=
    round_nonneg (div_nonneg (by exact_mod_cast hg) (le_of_lt hDpos))
  have hc1 := div_lt_one_bound hg hgD hD
  have hprod : 0 ≤ Float64.round ((g : ℚ) / D) * T := mul_nonneg hc0 (le_of_lt hTpos)
  have h1 := round_le_mul hprod
  have h2 : Float64.round ((g : ℚ) / D) * T * (1 + 2 ^ (-53 : Int))
      ≤ (1 - 2 ^ (-53 : Int)) * T * (1 + 2 ^ (-53 : Int)) := by
    apply mul_le_mul_of_nonneg_right _ (by norm_num)
    exact mul_le_mul_of_nonneg_right hc1 (le_of_lt hTpos)
  have h3 : (1 - 2 ^ (-53 : Int)) * (T : ℚ) * (1 + 2 ^ (-53 : Int)) < T := by
    have : (1 - 2 ^ (-53 : Int)) * (T : ℚ) * (1 + 2 ^ (-53 : Int))
        = T - T * (2 ^ (-53 : Int) * 2 ^ (-53 : Int)) := by ring
    rw [this]
    have : (0 : ℚ) < T * (2 ^ (-53 : Int) * 2 ^ (-53 : Int)) :=
      mul_pos hTpos (mul_pos (two_zpow_pos _) (two_zpow_pos _))
    linarith
  linarith

/-- The last cell's threshold is the session's seconds. -/
theorem threshold_last {D T : Int} (hD0 : 0 < D) (hD : D ≤ 2 ^ 53) (hT : |T| ≤ 2 ^ 53) :
    Float64.mul (Float64.div (Float64.ofInt D) (Float64.ofInt D)) (Float64.ofInt T) = T := by
  have hDabs : |D| ≤ 2 ^ 53 := by rw [abs_le]; constructor <;> omega
  have hDne : (D : ℚ) ≠ 0 := by exact_mod_cast (ne_of_gt hD0)
  rw [Float64.mul, Float64.div, ofInt_exact D hDabs, ofInt_exact T hT, div_self hDne, round_one,
    one_mul]
  exact round_intCast T hT

theorem totalSessionSeconds_bounds (m : TimerModel)
    (h1 : Second ≤ m.getCurrentSessionDuration) (h2 : m.getCurrentSessionDuration < 2 ^ 63) :
    1 ≤ m.totalSessionSeconds ∧ m.totalSessionSeconds ≤ 2 ^ 53 := by
  have hS : Second = 1000000000 := rfl
  have a1 : (1 : Int) * Second ≤ m.getCurrentSessionDuration := by rw [one_mul]; exact h1
  have hd : (0 : Int) ≤ m.getCurrentSessionDuration :=
    le_trans (by decide : (0 : Int) ≤ Second) h1
  have hd2 : m.getCurrentSessionDuration ≤ (2 ^ 53 * 1000000000 : Int) :=
    le_trans (le_of_lt h2) (by norm_num)
  have habs : |m.getCurrentSessionDuration| ≤ (2 ^ 53 * 1000000000 : Int) := by
    rw [abs_le]
    constructor
    · have : -(2 ^ 53 * 1000000000 : Int) ≤ 0 := by norm_num
      exact le_trans this hd
    · exact hd2
  constructor
  · have := @wholeSeconds_mono (1 * Second) m.getCurrentSessionDuration a1
      (by rw [hS]; norm_num) habs
    rwa [wholeSeconds_mul_Second 1 (by norm_num)] at this
  · have := @wholeSeconds_mono m.getCurrentSessionDuration (2 ^ 53 * Second)
      (by rw [hS]; exact hd2) habs (by rw [hS]; norm_num)
    rwa [wholeSeconds_mul_Second (2 ^ 53) (by norm_num)] at this

/-- Glyph of a cell at the end of a session: with nothing remaining, the
comparison drains every cell but the bottom-left one. -/
theorem glyph_at_timeout (m : TimerModel) (W : Int) (r c : Nat)
    (hW : 10 ≤ W) (hH : 1 ≤ m.progressLines) (hN : m.progressLines * W ≤ 2 ^ 53)
    (hrem : m.timer.Timeout = 0)
    (hsec : Second ≤ m.getCurrentSessionDuration) (hmax : m.getCurrentSessionDuration < 2 ^ 63)
    (hr : (r : Int) < m.progressLines) (hc : (c : Int) < W) :
    (if Float64.gt (Float64.ofInt m.totalSecondsElapsed) (m.timeThreshold W r c) then drained
      else filled)
      = (if (r : Int) = m.progressLines - 1 ∧ c = 0 then filled else drained) := by
  obtain ⟨hT1, hT2⟩ := totalSessionSeconds_bounds m hsec hmax
  have he : m.totalSecondsElapsed = m.totalSessionSeconds := by
    rw [TimerModel.totalSecondsElapsed, TimerModel.totalSessionSeconds, hrem, sub_zero]
  have hTabs : |m.totalSessionSeconds| ≤ 2 ^ 53 := by rw [abs_le]; constructor <;> omega
  have hD0 : 0 < m.progressLines * W - 1 := by
    have : (1 : Int) * 10 ≤ m.progressLines * W := mul_le_mul hH hW (by norm_num) (by omega)
    omega
  rw [he, ofInt_exact _ hTabs]
  by_cases hlast : (r : Int) = m.progressLines - 1 ∧ c = 0
  · have hg := (globalCharPos_eq_last hr hc).mpr hlast
    have hthr : m.timeThreshold W r c = m.totalSessionSeconds := by
      rw [TimerModel.timeThreshold, hg]
      exact threshold_last hD0 (by omega) hTabs
    have : ¬ Float64.gt (m.totalSessionSeconds : ℚ) (m.timeThreshold W r c) = true := by
      rw [gt_iff, hthr]
      exact lt_irrefl _
    rw [if_neg this, if_pos hlast]
  · have hne : globalCharPos W r c ≠ m.progressLines * W - 1 :=
      fun h => hlast ((globalCharPos_eq_last hr hc).mp h)
    have hlt : globalCharPos W r c < m.progressLines * W - 1 :=
      lt_of_le_of_ne (globalCharPos_le hr hc) hne
    have hthr : m.timeThreshold W r c < m.totalSessionSeconds := by
      rw [TimerModel.timeThreshold]
      exact threshold_lt (globalCharPos_nonneg hc) hlt (by omega) hT1 hT2
    have : Float64.gt (m.totalSessionSeconds : ℚ) (m.timeThreshold W r c) = true := by
      rw [gt_iff]
      exact hthr
    rw [if_pos this, if_neg hlast]

/-- C5, as the code has it: for `W ≥ 10`, `H ≥ 1` with `H*W ≤ 2^53` and a
session of at least one second (within the range of `time.Duration`), when
`remaining = 0` the grid `getSandTimer(W)` returns has every cell drained except
the bottom-left one (line `H-1`, column 0, global index `H*W-1`), which is
filled: its threshold equals the session's seconds and the comparison is strict. -/
theorem sandTimer_at_timeout (m : TimerModel) (W : Int)
    (hW : 10 ≤ W) (hH : 1 ≤ m.progressLines) (hN : m.progressLines * W ≤ 2 ^ 53)
    (hrem : m.timer.Timeout = 0)
    (hsec : Second ≤ m.getCurrentSessionDuration) (hmax : m.getCurrentSessionDuration < 2 ^ 63) :
    ∃ grid : List (List Cell),
      m.getSandTimer W = some grid
      ∧ (grid.length : Int) = m.progressLines
      ∧ (∀ line ∈ grid, (line.length : Int) = W)
      ∧ ∀ r c : Nat, (r : Int) < m.progressLines → (c : Int) < W →
          ∃ color, cellAt grid r c
            = some { color := color
                     glyph := if (r : Int) = m.progressLines - 1 ∧ c = 0 then filled
                        else drained } := by
  obtain ⟨grid, colorOf, hg, hlen, hline, hcell⟩ := getSandTimer_cell m W hW
  refine ⟨grid, hg, ?_, hline, ?_⟩
  · rw [hlen]
    exact max_eq_left (by omega)
  · intro r c hr hc
    refine ⟨colorOf r c, ?_⟩
    rw [hcell r c, if_pos ⟨hr, hc⟩, glyph_at_timeout m W r c hW hH hN hrem hsec hmax hr hc]

/-- C5 fails as stated, at its own example: a 25-minute session on one line of
10 cells with nothing remaining has its bottom-left cell (line 0, column 0)
filled, not drained. -/
theorem sandTimer_last_cell_filled_at_timeout :
    (sessionWithRemaining (25 * Minute) 0 1).timer.Timeout = 0
    ∧ ∃ (grid : List (List Cell)) (color : String),
        (sessionWithRemaining (25 * Minute) 0 1).getSandTimer 10 = some grid
        ∧ cellAt grid 0 0 = some { color := color, glyph := filled }
        ∧ filled ≠ drained := by
  refine ⟨rfl, ?_⟩
  obtain ⟨grid, colorOf, hg, -, -, hcell⟩ :=
    getSandTimer_cell (sessionWithRemaining (25 * Minute) 0 1) 10 (by decide)
  have hrc : ((0 : Nat) : Int) < (sessionWithRemaining (25 * Minute) 0 1).progressLines
      ∧ ((0 : Nat) : Int) < 10 := by decide
  have hlast : ((0 : Nat) : Int) = (sessionWithRemaining (25 * Minute) 0 1).progressLines - 1
      ∧ (0 : Nat) = 0 := by decide
  have hc := hcell 0 0
  rw [if_pos hrc, glyph_at_timeout (sessionWithRemaining (25 * Minute) 0 1) 10 0 0 (by decide)
    (by decide) (by decide) rfl (by decide) (by decide) hrc.1 hrc.2, if_pos hlast] at hc
  exact ⟨grid, colorOf 0 0, hg, hc, filled_ne_drained⟩

/-- C5 at a 25-minute session on one line of 10 cells with nothing remaining:
columns 1 to 9 are drained and column 0 is filled. -/
theorem sandTimer_at_timeout_witness :
    (10 : Int) ≤ 10
    ∧ 1 ≤ (sessionWithRemaining (25 * Minute) 0 1).progressLines
    ∧ (sessionWithRemaining (25 * Minute) 0 1).progressLines * 10 ≤ 2 ^ 53
    ∧ (sessionWithRemaining (25 * Minute) 0 1).timer.Timeout = 0
    ∧ Second ≤ (sessionWithRemaining (25 * Minute) 0 1).getCurrentSessionDuration
    ∧ (sessionWithRemaining (25 * Minute) 0 1).getCurrentSessionDuration < 2 ^ 63
    ∧ ∃ grid : List (List Cell),
      (sessionWithRemaining (25 * Minute) 0 1).getSandTimer 10 = some grid
      ∧ (grid.length : Int) = (sessionWithRemaining (25 * Minute) 0 1).progressLines
      ∧ (∀ line ∈ grid, (line.length : Int) = 10)
      ∧ ∀ r c : Nat, (r : Int) < (sessionWithRemaining (25 * Minute) 0 1).progressLines →
          (c : Int) < 10 →
          ∃ color, cellAt grid r c
            = some { color := color
                     glyph := if (r : Int)
                          = (sessionWithRemaining (25 * Minute) 0 1).progressLines - 1 ∧ c = 0
                        then filled else drained } :=
  ⟨by decide, by decide, by decide, rfl, by decide, by decide,
    sandTimer_at_timeout (sessionWithRemaining (25 * Minute) 0 1) 10 (by decide) (by decide)
      (by decide) rfl (by decide) (by decide)⟩

/-- C6 at the 25-minute session on one line of 10 cells, freshly built: all ten
cells are filled. -/
theorem sandTimer_all_filled_at_start_witness :
    (10 : Int) ≤ 10
    ∧ 1 ≤ (NewTimerModelWithOptions (25 * Minute) (5 * Minute) (15 * Minute) 1 0).1.progressLines
    ∧ 0 < (NewTimerModelWithOptions (25 * Minute) (5 * Minute) (15 * Minute) 1
        0).1.getCurrentSessionDuration
    ∧ (NewTimerModelWithOptions (25 * Minute) (5 * Minute) (15 * Minute) 1 0).1.timer.Timeout
        = (NewTimerModelWithOptions (25 * Minute) (5 * Minute) (15 * Minute) 1
            0).1.getCurrentSessionDuration
    ∧ ∃ grid : List (List Cell),
      (NewTimerModelWithOptions (25 * Minute) (5 * Minute) (15 * Minute) 1 0).1.getSandTimer 10
        = some grid
      ∧ (grid.length : Int)
        = (NewTimerModelWithOptions (25 * Minute) (5 * Minute) (15 * Minute) 1 0).1.progressLines
      ∧ (∀ line ∈ grid, (line.length : Int) = 10 ∧ ∀ cell ∈ line, cell.glyph = filled)
      ∧ ∀ r c : Nat,
          (r : Int) < (NewTimerModelWithOptions (25 * Minute) (5 * Minute) (15 * Minute) 1
            0).1.progressLines →
          (c : Int) < 10 →
          ∃ color, cellAt grid r c = some { color := color, glyph := filled } :=
  ⟨by decide, by decide, by decide, rfl,
    sandTimer_all_filled_at_start
      (NewTimerModelWithOptions (25 * Minute) (5 * Minute) (15 * Minute) 1 0).1 10
      (by decide) (by decide) (by decide) rfl⟩

/-- C7: for a fixed session (fixed total, width `W ≥ 10` and line count), and
two remaining times whose elapsed times satisfy `e1 ≤ e2` (both within the
range of `time.Duration`), every cell drained at `e1` is drained at `e2`. -/
theorem sandTimer_drain_monotone (m : TimerModel) (t1 t2 : timer.Model) (W : Int)
    (hW : 10 ≤ W)
    (he : m.getCurrentSessionDuration - t1.Timeout ≤ m.getCurrentSessionDuration - t2.Timeout)
    (h1 : |m.getCurrentSessionDuration - t1.Timeout| < 2 ^ 63)
    (h2 : |m.getCurrentSessionDuration - t2.Timeout| < 2 ^ 63) :
    ∃ g1 g2 : List (List Cell),
      { m with timer := t1 }.getSandTimer W = some g1
      ∧ { m with timer := t2 }.getSandTimer W = some g2
      ∧ ∀ (r c : Nat) (cell1 : Cell), cellAt g1 r c = some cell1 → cell1.glyph = drained →
          ∃ cell2, cellAt g2 r c = some cell2 ∧ cell2.glyph = drained := by
  obtain ⟨g1, c1, hg1, -, -, hcell1⟩ := getSandTimer_cell { m with timer := t1 } W hW
  obtain ⟨g2, c2, hg2, -, -, hcell2⟩ := getSandTimer_cell { m with timer := t2 } W hW
  refine ⟨g1, g2, hg1, hg2, ?_⟩
  intro r c cell1 hc1 hd
  have hthr : ({ m with timer := t2 } : TimerModel).timeThreshold W r c
      = ({ m with timer := t1 } : TimerModel).timeThreshold W r c := rfl
  have hmono : ({ m with timer := t1 } : TimerModel).totalSecondsElapsed
      ≤ ({ m with timer := t2 } : TimerModel).totalSecondsElapsed := by
    apply wholeSeconds_mono he
    · exact le_trans (le_of_lt h1) (by norm_num)
    · exact le_trans (le_of_lt h2) (by norm_num)
  rw [hcell1 r c] at hc1
  by_cases hrc : (r : Int) < ({ m with timer := t1 } : TimerModel).progressLines ∧ (c : Int) < W
  · rw [if_pos hrc] at hc1
    have hcell : cell1 = _ := (Option.some.inj hc1).symm
    rw [hcell] at hd
    have hgt : Float64.gt (Float64.ofInt ({ m with timer := t1 } : TimerModel).totalSecondsElapsed)
        (({ m with timer := t1 } : TimerModel).timeThreshold W r c) = true := by
      by_contra hn
      rw [if_neg hn] at hd
      exact filled_ne_drained hd
    have hgt2 : Float64.gt
        (Float64.ofInt ({ m with timer := t2 } : TimerModel).totalSecondsElapsed)
        (({ m with timer := t2 } : TimerModel).timeThreshold W r c) = true := by
      rw [gt_iff] at hgt ⊢
      rw [hthr]
      exact lt_of_lt_of_le hgt (ofInt_mono hmono)
    have hrc2 : (r : Int) < ({ m with timer := t2 } : TimerModel).progressLines
        ∧ (c : Int) < W := hrc
    refine ⟨{ color := c2 r c, glyph := drained }, ?_, rfl⟩
    rw [hcell2 r c, if_pos hrc2, if_pos hgt2]
  · rw [if_neg hrc] at hc1
    exact absurd hc1 (by simp)

/-- C7 at a 25-minute session of five lines, width 56: what is drained after 5
minutes is drained after 15. -/
theorem sandTimer_drain_monotone_witness :
    (10 : Int) ≤ 56
    ∧ (sessionWithRemaining (25 * Minute) 0 5).getCurrentSessionDuration
        - (timer.NewWithInterval (20 * Minute) Second 0).1.Timeout
      ≤ (sessionWithRemaining (25 * Minute) 0 5).getCurrentSessionDuration
        - (timer.NewWithInterval (10 * Minute) Second 0).1.Timeout
    ∧ |(sessionWithRemaining (25 * Minute) 0 5).getCurrentSessionDuration
        - (timer.NewWithInterval (20 * Minute) Second 0).1.Timeout| < 2 ^ 63
    ∧ |(sessionWithRemaining (25 * Minute) 0 5).getCurrentSessionDuration
        - (timer.NewWithInterval (10 * Minute) Second 0).1.Timeout| < 2 ^ 63
    ∧ ∃ g1 g2 : List (List Cell),
      { sessionWithRemaining (25 * Minute) 0 5 with
          timer := (timer.NewWithInterval (20 * Minute) Second 0).1 }.getSandTimer 56 = some g1
      ∧ { sessionWithRemaining (25 * Minute) 0 5 with
          timer := (timer.NewWithInterval (10 * Minute) Second 0).1 }.getSandTimer 56 = some g2
      ∧ ∀ (r c : Nat) (cell1 : Cell), cellAt g1 r c = some cell1 → cell1.glyph = drained →
          ∃ cell2, cellAt g2 r c = some cell2 ∧ cell2.glyph = drained :=
  ⟨by decide, by decide, by decide, by decide,
    sandTimer_drain_monotone (sessionWithRemaining (25 * Minute) 0 5)
      (timer.NewWithInterval (20 * Minute) Second 0).1
      (timer.NewWithInterval (10 * Minute) Second 0).1 56
      (by decide) (by decide) (by decide) (by decide)⟩

/-! ## Exact and rounded thresholds -/

set_option maxRecDepth 100000 in
theorem after39Ticks_fields : after39Ticks.timer.Timeout = 240 * Second
    ∧ after39Ticks.getCurrentSessionDuration = 279 * Second
    ∧ after39Ticks.progressLines = 5 := by decide

/-- The `float64` quotient `39/279` and its product with 279: the product falls
one unit in the last place short of 39. -/
theorem threshold_39_of_279 :
    Float64.mul (Float64.div (Float64.ofInt 39) (Float64.ofInt 279)) (Float64.ofInt 279)
      = 5488762045857791 * 2 ^ (-47 : Int) := by
  have hq : Float64.round ((39 : ℚ) / 279) = 5036283454263780 * 2 ^ (-55 : Int) := by
    have := round_eq_of (x := (39 : ℚ) / 279) (-3) 5036283454263780 (by norm_num) (by norm_num)
      (by rw [abs_lt]; constructor <;> norm_num)
    simpa using this
  have hp : Float64.round (5036283454263780 * 2 ^ (-55 : Int) * 279)
      = 5488762045857791 * 2 ^ (-47 : Int) := by
    have := round_eq_of (x := (5036283454263780 * 2 ^ (-55 : Int) * 279 : ℚ)) 5
      5488762045857791 (by norm_num) (by norm_num)
      (by rw [abs_lt]; constructor <;> norm_num)
    simpa using this
  have h39 : Float64.ofInt 39 = 39 := by
    have := ofInt_exact 39 (by norm_num)
    simpa using this
  have h279 : Float64.ofInt 279 = 279 := by
    have := ofInt_exact 279 (by norm_num)
    simpa using this
  rw [Float64.mul, Float64.div, h39, h279, hq, hp]

/-- C4 fails as stated when the threshold is taken as the exact product: in a
session of 279 s on five lines of 56 cells, 39 s in, the cell of global index 39
(line 0, column 16) is drained although `39 ≤ (39/279) * 279`. -/
theorem sandTimer_cell_exact_threshold_fails :
    ∃ (grid : List (List Cell)) (color : String),
      after39Ticks.getSandTimer 56 = some grid
      ∧ cellAt grid 0 16 = some { color := color, glyph := drained }
      ∧ drained ≠ filled
      ∧ (after39Ticks.totalSecondsElapsed : ℚ)
          ≤ (((0 : Int) * 56 + (56 - 1 - 16) : Int) : ℚ) / ((5 * 56 - 1 : Int) : ℚ)
            * (after39Ticks.totalSessionSeconds : ℚ) := by
  obtain ⟨hR, hT, hL⟩ := after39Ticks_fields
  obtain ⟨grid, colorOf, hg, -, -, hcell⟩ := getSandTimer_cell after39Ticks 56 (by norm_num)
  have he : after39Ticks.totalSecondsElapsed = 39 := by
    rw [TimerModel.totalSecondsElapsed, hR, hT]
    have : 279 * Second - 240 * Second = 39 * Second := by decide
    rw [this]
    exact wholeSeconds_mul_Second 39 (by norm_num)
  have hs : after39Ticks.totalSessionSeconds = 279 := by
    rw [TimerModel.totalSessionSeconds, hT]
    exact wholeSeconds_mul_Second 279 (by norm_num)
  have hthr : after39Ticks.timeThreshold 56 0 16 = 5488762045857791 * 2 ^ (-47 : Int) := by
    rw [TimerModel.timeThreshold, hs, hL]
    have hgp : globalCharPos 56 0 16 = 39 := by decide
    have hd : (5 * 56 - 1 : Int) = 279 := by decide
    rw [hgp, hd]
    exact threshold_39_of_279
  have h39 : Float64.ofInt 39 = 39 := by
    have := ofInt_exact 39 (by norm_num)
    simpa using this
  have hgt : Float64.gt (Float64.ofInt after39Ticks.totalSecondsElapsed)
      (after39Ticks.timeThreshold 56 0 16) = true := by
    rw [gt_iff, he, hthr, h39]
    norm_num
  have hrc : ((0 : Nat) : Int) < after39Ticks.progressLines ∧ ((16 : Nat) : Int) < 56 := by
    rw [hL]
    decide
  have hc := hcell 0 16
  rw [if_pos hrc, if_pos hgt] at hc
  refine ⟨grid, colorOf 0 16, hg, hc, fun h => filled_ne_drained h.symm, ?_⟩
  rw [he, hs]
  norm_num

/-- C4 at a 25-minute session of five lines, width 56, 5 minutes in: the cell
at line 2, column 7. -/
theorem sandTimer_cell_threshold_witness :
    (10 : Int) ≤ 56
    ∧ 1 ≤ (sessionWithRemaining (25 * Minute) (20 * Minute) 5).progressLines
    ∧ ((2 : Nat) : Int) < (sessionWithRemaining (25 * Minute) (20 * Minute) 5).progressLines
    ∧ ((7 : Nat) : Int) < 56
    ∧ ∃ (grid : List (List Cell)) (cell : Cell),
      (sessionWithRemaining (25 * Minute) (20 * Minute) 5).getSandTimer 56 = some grid
      ∧ cellAt grid 2 7 = some cell
      ∧ (cell.glyph = filled ↔
          Float64.ofInt (sessionWithRemaining (25 * Minute) (20 * Minute) 5).totalSecondsElapsed
            ≤ (sessionWithRemaining (25 * Minute) (20 * Minute) 5).timeThreshold 56 2 7)
      ∧ (cell.glyph = drained ↔
          ¬ Float64.ofInt (sessionWithRemaining (25 * Minute) (20 * Minute) 5).totalSecondsElapsed
            ≤ (sessionWithRemaining (25 * Minute) (20 * Minute) 5).timeThreshold 56 2 7)
      ∧ (sessionWithRemaining (25 * Minute) (20 * Minute) 5).timeThreshold 56 2 7
          = Float64.mul
              (Float64.div (Float64.ofInt (((2 : Nat) : Int) * 56 + (56 - 1 - ((7 : Nat) : Int))))
                (Float64.ofInt
                  ((sessionWithRemaining (25 * Minute) (20 * Minute) 5).progressLines * 56 - 1)))
              (Float64.ofInt (Duration.wholeSeconds
                (sessionWithRemaining (25 * Minute) (20 * Minute) 5).getCurrentSessionDuration))
      ∧ (sessionWithRemaining (25 * Minute) (20 * Minute) 5).totalSecondsElapsed
          = Duration.wholeSeconds
              ((sessionWithRemaining (25 * Minute) (20 * Minute) 5).getCurrentSessionDuration
                - (sessionWithRemaining (25 * Minute) (20 * Minute) 5).timer.Timeout)
      ∧ globalCharPos 56 0 ((56 : Int).toNat - 1) = 0
      ∧ globalCharPos 56
            ((sessionWithRemaining (25 * Minute) (20 * Minute) 5).progressLines.toNat - 1) 0
          = (sessionWithRemaining (25 * Minute) (20 * Minute) 5).progressLines * 56 - 1 :=
  ⟨by decide, by decide, by decide, by decide,
    sandTimer_cell_threshold (sessionWithRemaining (25 * Minute) (20 * Minute) 5) 56 2 7
      (by decide) (by decide) (by decide) (by decide)⟩

/-! ## Root model -/

/-- Every message other than a window size and the keys "q", "ctrl+c" and "tab"
reaches the timer, in the timer view and in the todo view alike; the view and
the window size are left as they were. -/
theorem model_Update_forwards {Todo : Type} (todoUpdate : Todo → Msg → Todo × Cmd)
    (m : model Todo) (msg : Msg) (lastID : Int)
    (hsize : ∀ w h, msg ≠ Msg.windowSize w h)
    (hq : msg ≠ Msg.key "q") (hc : msg ≠ Msg.key "ctrl+c") (htab : msg ≠ Msg.key "tab") :
    (model.Update todoUpdate m msg lastID).1.timer = (m.timer.Update msg lastID).1
    ∧ (model.Update todoUpdate m msg lastID).2.2 = (m.timer.Update msg lastID).2.2
    ∧ (model.Update todoUpdate m msg lastID).1.view = m.view
    ∧ (model.Update todoUpdate m msg lastID).1.width = m.width
    ∧ (model.Update todoUpdate m msg lastID).1.height = m.height := by
  cases msg with
  | windowSize w h => exact absurd rfl (hsize w h)
  | key s =>
    have h1 : ¬ (s = "q" ∨ s = "ctrl+c") := by
      rintro (h | h)
      · exact hq (by rw [h])
      · exact hc (by rw [h])
    have h2 : ¬ s = "tab" := fun h => htab (by rw [h])
    simp only [model.Update, h1, h2, if_false]
    split <;> simp
  | tick ID b tag =>
    simp only [model.Update]
    split <;> simp
  | timeout ID =>
    simp only [model.Update]
    split <;> simp
  | startStop ID r =>
    simp only [model.Update]
    split <;> simp
  | other =>
    simp only [model.Update]
    split <;> simp
  | quit =>
    simp only [model.Update]
    split <;> simp

/-- C12 fails on the code: in the todo view of a freshly built model, the key
"e" ends the work session (the timer goes from work with `sessionCount = 0` to
the short break with `sessionCount = 1`), the key " " starts the timer
(`isRunning` goes from false to true), and after that the key "r" pauses it
again, whatever the todo component does with the key. -/
theorem todoView_keys_change_timer {Todo : Type} (todoUpdate : Todo → Msg → Todo × Cmd)
    (newTodo : Todo) :
    (todoViewModel newTodo).view = viewState.todoView
    ∧ (todoViewModel newTodo).timer.sessionType = sessionType.work
    ∧ (todoViewModel newTodo).timer.sessionCount = 0
    ∧ (todoViewModel newTodo).timer.isRunning = false
    ∧ (model.Update todoUpdate (todoViewModel newTodo) (Msg.key "e") 1).1.view
        = viewState.todoView
    ∧ (model.Update todoUpdate (todoViewModel newTodo) (Msg.key "e") 1).1.timer.sessionType
        = sessionType.shortBreak
    ∧ (model.Update todoUpdate (todoViewModel newTodo) (Msg.key "e") 1).1.timer.sessionCount = 1
    ∧ (model.Update todoUpdate (todoViewModel newTodo) (Msg.key "e") 1).1.timer.timer.Timeout
        = 5 * Minute
    ∧ (model.Update todoUpdate (todoViewModel newTodo) (Msg.key " ") 1).1.timer.isRunning = true
    ∧ (model.Update todoUpdate
        (model.Update todoUpdate (todoViewModel newTodo) (Msg.key " ") 1).1
        (Msg.key "r") 1).1.timer.isRunning = false := by
  have f1 := model_Update_forwards todoUpdate (todoViewModel newTodo) (Msg.key "e") 1
    (by intro w h; simp) (by decide) (by decide) (by decide)
  have f2 := model_Update_forwards todoUpdate (todoViewModel newTodo) (Msg.key " ") 1
    (by intro w h; simp) (by decide) (by decide) (by decide)
  have f3 := model_Update_forwards todoUpdate
    (model.Update todoUpdate (todoViewModel newTodo) (Msg.key " ") 1).1 (Msg.key "r") 1
    (by intro w h; simp) (by decide) (by decide) (by decide)
  have ht : (todoViewModel newTodo).timer
      = (NewTimerModelWithOptions (25 * Minute) (5 * Minute) (15 * Minute) 5 0).1 := rfl
  have hr : ¬ ("r" = " ") := by decide
  refine ⟨rfl, rfl, rfl, rfl, f1.2.2.1, ?_, ?_, ?_, ?_, ?_⟩
  · rw [f1.1, ht]; decide
  · rw [f1.1, ht]; decide
  · rw [f1.1, ht]; decide
  · rw [f2.1, ht]; decide
  · rw [f3.1]
    simp [TimerModel.Update, hr]

/-! ## Gradient colour -/

theorem round_neg (x : ℚ) : Float64.round (-x) = -Float64.round x := by
  rcases lt_trichotomy x 0 with h | h | h
  · rw [round_of_neg h, round_of_nonneg (by linarith), neg_neg]
  · rw [h, neg_zero, round_zero, neg_zero]
  · rw [round_of_neg (by linarith : -x < 0), round_of_nonneg (le_of_lt h), neg_neg]

/-- A channel interpolated with a factor in `[0, 1]` lies between its two
endpoints, rounding included. -/
theorem interpolateChannel_between (a b : Int) (p : Float64)
    (ha : |a| ≤ 2 ^ 52) (hb : |b| ≤ 2 ^ 52) (h0 : 0 ≤ p) (h1 : p ≤ 1) :
    min a b ≤ interpolateChannel a b p ∧ interpolateChannel a b p ≤ max a b := by
  rw [abs_le] at ha hb
  have ha53 : |a| ≤ 2 ^ 53 := by rw [abs_le]; constructor <;> omega
  have hb53 : |b| ≤ 2 ^ 53 := by rw [abs_le]; constructor <;> omega
  have hd53 : |b - a| ≤ 2 ^ 53 := by rw [abs_le]; constructor <;> omega
  have hsub : Float64.sub (Float64.ofInt b) (Float64.ofInt a) = ((b - a : Int) : ℚ) := by
    rw [Float64.sub, ofInt_exact a ha53, ofInt_exact b hb53]
    have := round_intCast (b - a) hd53
    push_cast at this ⊢
    exact this
  have ra : Float64.round (a : ℚ) = a := round_intCast a ha53
  have rb : Float64.round (b : ℚ) = b := round_intCast b hb53
  have rd : Float64.round ((b - a : Int) : ℚ) = ((b - a : Int) : ℚ) := round_intCast (b - a) hd53
  unfold interpolateChannel
  rw [hsub, ofInt_exact a ha53, Float64.add, Float64.mul]
  rcases le_total a b with hab | hab
  · have hd : (0 : ℚ) ≤ ((b - a : Int) : ℚ) := by
      have : 0 ≤ b - a := by omega
      exact_mod_cast this
    have m0 : 0 ≤ Float64.round (p * ((b - a : Int) : ℚ)) :=
      round_nonneg (mul_nonneg h0 hd)
    have m1 : Float64.round (p * ((b - a : Int) : ℚ)) ≤ ((b - a : Int) : ℚ) := by
      have := round_mono (mul_le_of_le_one_left hd h1)
      rwa [rd] at this
    have s0 : (a : ℚ) ≤ Float64.round ((a : ℚ) + Float64.round (p * ((b - a : Int) : ℚ))) := by
      have hle : (a : ℚ) ≤ (a : ℚ) + Float64.round (p * ((b - a : Int) : ℚ)) := by linarith
      have := round_mono hle
      rwa [ra] at this
    have s1 : Float64.round ((a : ℚ) + Float64.round (p * ((b - a : Int) : ℚ))) ≤ (b : ℚ) := by
      have hle : (a : ℚ) + Float64.round (p * ((b - a : Int) : ℚ)) ≤ (b : ℚ) := by
        have hc : ((b - a : Int) : ℚ) = (b : ℚ) - a := by push_cast; ring
        linarith
      have := round_mono hle
      rwa [rb] at this
    rw [min_eq_left hab, max_eq_right hab]
    constructor
    · have := toInt_mono s0
      rwa [toInt_intCast] at this
    · have := toInt_mono s1
      rwa [toInt_intCast] at this
  · have hd : ((b - a : Int) : ℚ) ≤ 0 := by
      have : b - a ≤ 0 := by omega
      exact_mod_cast this
    have m0 : Float64.round (p * ((b - a : Int) : ℚ)) ≤ 0 :=
      round_nonpos (mul_nonpos_of_nonneg_of_nonpos h0 hd)
    have m1 : ((b - a : Int) : ℚ) ≤ Float64.round (p * ((b - a : Int) : ℚ)) := by
      have hle : ((b - a : Int) : ℚ) ≤ p * ((b - a : Int) : ℚ) := by
        have := mul_le_of_le_one_left (show (0 : ℚ) ≤ -((b - a : Int) : ℚ) by linarith) h1
        linarith
      have := round_mono hle
      rwa [rd] at this
    have s0 : (b : ℚ) ≤ Float64.round ((a : ℚ) + Float64.round (p * ((b - a : Int) : ℚ))) := by
      have hle : (b : ℚ) ≤ (a : ℚ) + Float64.round (p * ((b - a : Int) : ℚ)) := by
        have hc : ((b - a : Int) : ℚ) = (b : ℚ) - a := by push_cast; ring
        linarith
      have := round_mono hle
      rwa [rb] at this
    have s1 : Float64.round ((a : ℚ) + Float64.round (p * ((b - a : Int) : ℚ))) ≤ (a : ℚ) := by
      have hle : (a : ℚ) + Float64.round (p * ((b - a : Int) : ℚ)) ≤ (a : ℚ) := by linarith
      have := round_mono hle
      rwa [ra] at this
    rw [min_eq_right hab, max_eq_left hab]
    constructor
    · have := toInt_mono s0
      rwa [toInt_intCast] at this
    · have := toInt_mono s1
      rwa [toInt_intCast] at this

theorem interpolateChannel_zero (a b : Int) (ha : |a| ≤ 2 ^ 52) :
    interpolateChannel a b 0 = a := by
  have ha53 : |a| ≤ 2 ^ 53 := le_trans ha (by norm_num)
  unfold interpolateChannel
  rw [Float64.mul, zero_mul, round_zero, Float64.add, add_zero, ofInt_exact a ha53,
    round_intCast a ha53, toInt_intCast]

theorem interpolateChannel_one (a b : Int) (ha : |a| ≤ 2 ^ 52) (hb : |b| ≤ 2 ^ 52) :
    interpolateChannel a b 1 = b := by
  rw [abs_le] at ha hb
  have ha53 : |a| ≤ 2 ^ 53 := by rw [abs_le]; constructor <;> omega
  have hb53 : |b| ≤ 2 ^ 53 := by rw [abs_le]; constructor <;> omega
  have hd53 : |b - a| ≤ 2 ^ 53 := by rw [abs_le]; constructor <;> omega
  have rd : Float64.round ((b : ℚ) - a) = (b : ℚ) - a := by
    have := round_intCast (b - a) hd53
    push_cast at this
    exact this
  unfold interpolateChannel
  rw [Float64.sub, ofInt_exact a ha53, ofInt_exact b hb53, rd, Float64.mul, one_mul, rd,
    Float64.add]
  have : (a : ℚ) + ((b : ℚ) - a) = b := by ring
  rw [this, round_intCast b hb53, toInt_intCast]

theorem clampChannel_of_mem {v : Int} (h0 : 0 ≤ v) (h1 : v ≤ 255) : clampChannel v = v := by
  unfold clampChannel
  simp only
  rw [if_neg (by omega), if_neg (by omega)]

set_option maxRecDepth 100000 in
theorem formatHex2_byte : ∀ n : Fin 256,
    (formatHex2 (n.val : Int)).map hexDigitValue
      = [some ((n.val : Int) / 16), some ((n.val : Int) % 16)] := by
  decide

theorem formatHex2_digits {v : Int} (h0 : 0 ≤ v) (h1 : v ≤ 255) :
    ∃ d1 d2 : Char, formatHex2 v = [d1, d2]
      ∧ hexDigitValue d1 = some (v / 16) ∧ hexDigitValue d2 = some (v % 16) := by
  have hn : v.toNat < 256 := by omega
  have hv : ((⟨v.toNat, hn⟩ : Fin 256).val : Int) = v := by
    simp only
    omega
  have h := formatHex2_byte ⟨v.toNat, hn⟩
  rw [hv] at h
  rcases hf : formatHex2 v with _ | ⟨d1, _ | ⟨d2, _ | ⟨d3, l⟩⟩⟩
  · rw [hf] at h
    simp at h
  · rw [hf] at h
    simp at h
  · rw [hf] at h
    simp only [List.map_cons, List.map_nil, List.cons.injEq, and_true] at h
    exact ⟨d1, d2, rfl, h.1, h.2⟩
  · rw [hf] at h
    simp at h

/-- The gradient of the sand timer: the two literals parse to their channels
and the result is assembled from the three interpolated channels. -/
theorem interpolateColor_gradient_eq (p : Float64) :
    interpolateColor "#FF7CCB" "#FDFF8C" p
      = some (String.mk ('#' :: (formatHex2 (clampChannel (interpolateChannel 255 253 p))
          ++ formatHex2 (clampChannel (interpolateChannel 124 255 p))
          ++ formatHex2 (clampChannel (interpolateChannel 203 140 p))))) := by
  have h1 : parseHexColor "#FF7CCB" = some (255, 124, 203) := by decide
  have h2 : parseHexColor "#FDFF8C" = some (253, 255, 140) := by decide
  simp only [interpolateColor, h1, h2]
  rfl

/-- The colour of the cell `getSandTimer` emits at line `r`, column `c`. -/
theorem getSandTimer_cell_color (m : TimerModel) (width : Int) (r c : Nat)
    (hw : 10 ≤ width) (hr : (r : Int) < m.progressLines) (hc : (c : Int) < width) :
    ∃ (grid : List (List Cell)) (cell : Cell),
      m.getSandTimer width = some grid ∧ cellAt grid r c = some cell
      ∧ interpolateColor "#FF7CCB" "#FDFF8C"
          (Float64.div (Float64.ofInt (globalCharPos width r c))
            (Float64.ofInt (m.progressLines * width - 1))) = some cell.color := by
  have hg := getSandTimer_grid_colors m width hw
  obtain ⟨color, hcol⟩ := interpolateColor_gradient
    (Float64.div (Float64.ofInt (globalCharPos width r c))
      (Float64.ofInt (m.progressLines * width - 1)))
  refine ⟨_, Cell.mk color (if Float64.gt (Float64.ofInt m.totalSecondsElapsed)
    (m.timeThreshold width r c) then drained else filled), hg, ?_, hcol⟩
  rw [cellAt_map_range, if_pos ⟨by omega, by omega⟩, hcol, Option.getD_some]

/-- The fraction of a cell lies in `[0, 1]`: 0 for the index 0 and 1 for the
last index. -/
theorem cell_fraction_bounds {g D : Int} (hg : 0 ≤ g) (hgD : g ≤ D) (hD : 0 < D) :
    0 ≤ Float64.div (Float64.ofInt g) (Float64.ofInt D)
    ∧ Float64.div (Float64.ofInt g) (Float64.ofInt D) ≤ 1
    ∧ Float64.div (Float64.ofInt 0) (Float64.ofInt D) = 0
    ∧ Float64.div (Float64.ofInt D) (Float64.ofInt D) = 1 := by
  have hDpos : 0 < Float64.ofInt D := by
    have h : (0 : ℚ) < (D : ℚ) := by exact_mod_cast hD
    rw [ofInt, round_of_nonneg (le_of_lt h)]
    exact roundMag_pos h
  have hg0 : 0 ≤ Float64.ofInt g := ofInt_nonneg hg
  have hle : Float64.ofInt g ≤ Float64.ofInt D := ofInt_mono hgD
  have hz : Float64.ofInt 0 = 0 := by simpa using ofInt_exact 0 (by norm_num)
  refine ⟨round_nonneg (div_nonneg hg0 (le_of_lt hDpos)), ?_, ?_, ?_⟩
  · have h1 : Float64.ofInt g / Float64.ofInt D ≤ 1 := (div_le_one hDpos).mpr hle
    have := round_mono h1
    rwa [round_one] at this
  · rw [Float64.div, hz, zero_div, round_zero]
  · rw [Float64.div, div_self (ne_of_gt hDpos), round_one]

theorem interpolateColor_gradient_zero :
    interpolateColor "#FF7CCB" "#FDFF8C" 0 = some "#ff7ccb" := by
  rw [interpolateColor_gradient_eq,
    interpolateChannel_zero 255 253 (by norm_num),
    interpolateChannel_zero 124 255 (by norm_num),
    interpolateChannel_zero 203 140 (by norm_num)]
  decide

theorem interpolateColor_gradient_one :
    interpolateColor "#FF7CCB" "#FDFF8C" 1 = some "#fdff8c" := by
  rw [interpolateColor_gradient_eq,
    interpolateChannel_one 255 253 (by norm_num) (by norm_num),
    interpolateChannel_one 124 255 (by norm_num) (by norm_num),
    interpolateChannel_one 203 140 (by norm_num) (by norm_num)]
  decide

theorem globalCharPos_top_right (W : Int) (hW : 10 ≤ W) :
    globalCharPos W 0 (W.toNat - 1) = 0 := by
  unfold globalCharPos
  have : ((W.toNat - 1 : Nat) : Int) = W - 1 := by omega
  rw [this]
  simp

theorem globalCharPos_bottom_left (W H : Int) (hH : 1 ≤ H) :
    globalCharPos W (H.toNat - 1) 0 = H * W - 1 := by
  unfold globalCharPos
  have : ((H.toNat - 1 : Nat) : Int) = H - 1 := by omega
  rw [this]
  push_cast
  ring

/-- C11, as the code has it: for `0 ≤ p ≤ 1`,
`interpolateColor("#FF7CCB", "#FDFF8C", p)` is `#` followed by exactly six
hexadecimal digits, two per channel; each channel is
`int(float64(start) + p*(float64(end) - float64(start)))`, the product and the
sum each rounded to `float64`, and lies between the two endpoint channels, hence
in `[0, 255]`; at `p = 0` the result is `#ff7ccb` and at `p = 1` it is `#fdff8c`.
In the grid `getSandTimer(W)` returns (`W ≥ 10`, `H ≥ 1`) the cell at line `r`,
column `c` carries the colour of the factor
`float64(r*W + (W-1-c)) / float64(H*W - 1)`, which lies in `[0, 1]`: the
top-right cell is `#ff7ccb` and the bottom-left cell is `#fdff8c`. -/
theorem interpolateColor_gradient_channels (p : Float64) (h0 : 0 ≤ p) (h1 : p ≤ 1)
    (m : TimerModel) (W : Int) (hW : 10 ≤ W) (hH : 1 ≤ m.progressLines) :
    (∃ (r g b : Int) (r1 r2 g1 g2 b1 b2 : Char),
      interpolateColor "#FF7CCB" "#FDFF8C" p = some (String.mk ['#', r1, r2, g1, g2, b1, b2])
      ∧ r = Float64.toInt (Float64.add (Float64.ofInt 255)
          (Float64.mul p (Float64.sub (Float64.ofInt 253) (Float64.ofInt 255))))
      ∧ g = Float64.toInt (Float64.add (Float64.ofInt 124)
          (Float64.mul p (Float64.sub (Float64.ofInt 255) (Float64.ofInt 124))))
      ∧ b = Float64.toInt (Float64.add (Float64.ofInt 203)
          (Float64.mul p (Float64.sub (Float64.ofInt 140) (Float64.ofInt 203))))
      ∧ (253 ≤ r ∧ r ≤ 255) ∧ (124 ≤ g ∧ g ≤ 255) ∧ (140 ≤ b ∧ b ≤ 203)
      ∧ (0 ≤ r ∧ r ≤ 255) ∧ (0 ≤ g ∧ g ≤ 255) ∧ (0 ≤ b ∧ b ≤ 255)
      ∧ hexDigitValue r1 = some (r / 16) ∧ hexDigitValue r2 = some (r % 16)
      ∧ hexDigitValue g1 = some (g / 16) ∧ hexDigitValue g2 = some (g % 16)
      ∧ hexDigitValue b1 = some (b / 16) ∧ hexDigitValue b2 = some (b % 16)
      ∧ parseHexColor "#FF7CCB" = some (255, 124, 203)
      ∧ parseHexColor "#FDFF8C" = some (253, 255, 140)
      ∧ interpolateColor "#FF7CCB" "#FDFF8C" 0 = some "#ff7ccb"
      ∧ interpolateColor "#FF7CCB" "#FDFF8C" 1 = some "#fdff8c")
    ∧ ∃ grid : List (List Cell),
      m.getSandTimer W = some grid
      ∧ (∀ r c : Nat, (r : Int) < m.progressLines → (c : Int) < W →
          ∃ cell : Cell, cellAt grid r c = some cell
            ∧ interpolateColor "#FF7CCB" "#FDFF8C"
                (Float64.div (Float64.ofInt ((r : Int) * W + (W - 1 - (c : Int))))
                  (Float64.ofInt (m.progressLines * W - 1))) = some cell.color
            ∧ 0 ≤ Float64.div (Float64.ofInt ((r : Int) * W + (W - 1 - (c : Int))))
                  (Float64.ofInt (m.progressLines * W - 1))
            ∧ Float64.div (Float64.ofInt ((r : Int) * W + (W - 1 - (c : Int))))
                  (Float64.ofInt (m.progressLines * W - 1)) ≤ 1)
      ∧ (∃ cell : Cell, cellAt grid 0 (W.toNat - 1) = some cell ∧ cell.color = "#ff7ccb")
      ∧ (∃ cell : Cell, cellAt grid (m.progressLines.toNat - 1) 0 = some cell
          ∧ cell.color = "#fdff8c") := by
  have hr := interpolateChannel_between 255 253 p (by norm_num) (by norm_num) h0 h1
  have hg := interpolateChannel_between 124 255 p (by norm_num) (by norm_num) h0 h1
  have hb := interpolateChannel_between 203 140 p (by norm_num) (by norm_num) h0 h1
  have hr2 : 253 ≤ interpolateChannel 255 253 p ∧ interpolateChannel 255 253 p ≤ 255 := by
    simpa using hr
  have hg2 : 124 ≤ interpolateChannel 124 255 p ∧ interpolateChannel 124 255 p ≤ 255 := by
    simpa using hg
  have hb2 : 140 ≤ interpolateChannel 203 140 p ∧ interpolateChannel 203 140 p ≤ 203 := by
    simpa using hb
  obtain ⟨r1, r2, fr, vr1, vr2⟩ :=
    formatHex2_digits (v := interpolateChannel 255 253 p) (by omega) (by omega)
  obtain ⟨g1, g2, fg, vg1, vg2⟩ :=
    formatHex2_digits (v := interpolateChannel 124 255 p) (by omega) (by omega)
  obtain ⟨b1, b2, fb, vb1, vb2⟩ :=
    formatHex2_digits (v := interpolateChannel 203 140 p) (by omega) (by omega)
  have hD : 0 < m.progressLines * W - 1 := by
    have : (1 : Int) * 10 ≤ m.progressLines * W := mul_le_mul hH hW (by norm_num) (by omega)
    omega
  have hgrid := getSandTimer_grid_colors m W hW
  have cellOf : ∀ r c : Nat, (r : Int) < m.progressLines → (c : Int) < W →
      ∃ cell : Cell, cellAt ((List.range m.progressLines.toNat).map fun r =>
          (List.range W.toNat).map fun c =>
            ({ color := (interpolateColor "#FF7CCB" "#FDFF8C"
                (Float64.div (Float64.ofInt (globalCharPos W r c))
                  (Float64.ofInt (m.progressLines * W - 1)))).getD ""
               glyph := if Float64.gt (Float64.ofInt m.totalSecondsElapsed)
                  (m.timeThreshold W r c) then drained else filled } : Cell)) r c = some cell
        ∧ interpolateColor "#FF7CCB" "#FDFF8C"
            (Float64.div (Float64.ofInt (globalCharPos W r c))
              (Float64.ofInt (m.progressLines * W - 1))) = some cell.color := by
    intro r c hr hc
    obtain ⟨g1, cell, hg1, hcell, hcol⟩ := getSandTimer_cell_color m W r c hW hr hc
    have : g1 = _ := Option.some.inj (hg1.symm.trans hgrid)
    rw [this] at hcell
    exact ⟨cell, hcell, hcol⟩
  refine ⟨⟨interpolateChannel 255 253 p, interpolateChannel 124 255 p,
    interpolateChannel 203 140 p, r1, r2, g1, g2, b1, b2, ?_, rfl, rfl, rfl, hr2, hg2, hb2,
    ⟨by omega, by omega⟩, ⟨by omega, by omega⟩, ⟨by omega, by omega⟩,
    vr1, vr2, vg1, vg2, vb1, vb2, by decide, by decide,
    interpolateColor_gradient_zero, interpolateColor_gradient_one⟩,
    _, hgrid, ?_, ?_, ?_⟩
  · rw [interpolateColor_gradient_eq, clampChannel_of_mem (by omega) (by omega),
      clampChannel_of_mem (v := interpolateChannel 124 255 p) (by omega) (by omega),
      clampChannel_of_mem (v := interpolateChannel 203 140 p) (by omega) (by omega), fr, fg, fb]
    rfl
  · intro r c hr hc
    obtain ⟨cell, hcell, hcol⟩ := cellOf r c hr hc
    have hb := cell_fraction_bounds (globalCharPos_nonneg (r := r) hc)
      (globalCharPos_le hr hc) hD
    exact ⟨cell, hcell, hcol, hb.1, hb.2.1⟩
  · obtain ⟨cell, hcell, hcol⟩ := cellOf 0 (W.toNat - 1) (by omega) (by omega)
    refine ⟨cell, hcell, ?_⟩
    rw [globalCharPos_top_right W hW,
      (cell_fraction_bounds (le_refl 0) (le_of_lt hD) hD).2.2.1,
      interpolateColor_gradient_zero] at hcol
    exact (Option.some.inj hcol).symm
  · obtain ⟨cell, hcell, hcol⟩ := cellOf (m.progressLines.toNat - 1) 0 (by omega) (by omega)
    refine ⟨cell, hcell, ?_⟩
    rw [globalCharPos_bottom_left W m.progressLines hH,
      (cell_fraction_bounds (le_of_lt hD) (le_refl _) hD).2.2.2,
      interpolateColor_gradient_one] at hcol
    exact (Option.some.inj hcol).symm

/-- The three channels of the gradient at the factor `2^-60`: each sum rounds
back to the start channel. -/
theorem interpolateChannel_tiny :
    interpolateChannel 255 253 (2 ^ (-60 : Int)) = 255
    ∧ interpolateChannel 124 255 (2 ^ (-60 : Int)) = 124
    ∧ interpolateChannel 203 140 (2 ^ (-60 : Int)) = 203 := by
  have e255 : Float64.ofInt 255 = 255 := by simpa using ofInt_exact 255 (by norm_num)
  have e253 : Float64.ofInt 253 = 253 := by simpa using ofInt_exact 253 (by norm_num)
  have e124 : Float64.ofInt 124 = 124 := by simpa using ofInt_exact 124 (by norm_num)
  have e203 : Float64.ofInt 203 = 203 := by simpa using ofInt_exact 203 (by norm_num)
  have e140 : Float64.ofInt 140 = 140 := by simpa using ofInt_exact 140 (by norm_num)
  have t255 : Float64.toInt 255 = 255 := by simpa using toInt_intCast 255
  have t124 : Float64.toInt 124 = 124 := by simpa using toInt_intCast 124
  have t203 : Float64.toInt 203 = 203 := by simpa using toInt_intCast 203
  refine ⟨?_, ?_, ?_⟩
  · have hs : Float64.round ((253 : ℚ) - 255) = -2 := by
      have := round_intCast (-2) (by norm_num)
      norm_num at this ⊢
      exact this
    have hm : Float64.round ((2 : ℚ) ^ (-60 : Int) * -2) = -(2 ^ (-59 : Int)) := by
      have h1 : (2 : ℚ) ^ (-60 : Int) * -2 = -(2 ^ (-59 : Int)) := by norm_num
      rw [h1, round_neg]
      have := round_eq_of (x := (2 : ℚ) ^ (-59 : Int)) (-59) (2 ^ 52) (by norm_num)
        (by norm_num) (by rw [abs_lt]; constructor <;> norm_num)
      rw [this]
      norm_num
    have ha : Float64.round ((255 : ℚ) + -(2 ^ (-59 : Int))) = 255 := by
      have := round_eq_of (x := (255 : ℚ) + -(2 ^ (-59 : Int))) 7 (255 * 2 ^ 45) (by norm_num)
        (by norm_num) (by rw [abs_lt]; constructor <;> norm_num)
      rw [this]
      norm_num
    rw [interpolateChannel, Float64.sub, e253, e255, hs, Float64.mul, hm, Float64.add, ha, t255]
  · have hs : Float64.round ((255 : ℚ) - 124) = 131 := by
      have := round_intCast 131 (by norm_num)
      norm_num at this ⊢
      exact this
    have hm : Float64.round ((2 : ℚ) ^ (-60 : Int) * 131) = 131 * 2 ^ (-60 : Int) := by
      have := round_eq_of (x := (2 : ℚ) ^ (-60 : Int) * 131) (-53) (131 * 2 ^ 45) (by norm_num)
        (by norm_num) (by rw [abs_lt]; constructor <;> norm_num)
      rw [this]
      norm_num
    have ha : Float64.round ((124 : ℚ) + 131 * 2 ^ (-60 : Int)) = 124 := by
      have := round_eq_of (x := (124 : ℚ) + 131 * 2 ^ (-60 : Int)) 6 (124 * 2 ^ 46)
        (by norm_num) (by norm_num) (by rw [abs_lt]; constructor <;> norm_num)
      rw [this]
      norm_num
    rw [interpolateChannel, Float64.sub, e255, e124, hs, Float64.mul, hm, Float64.add, ha, t124]
  · have hs : Float64.round ((140 : ℚ) - 203) = -63 := by
      have := round_intCast (-63) (by norm_num)
      norm_num at this ⊢
      exact this
    have hm : Float64.round ((2 : ℚ) ^ (-60 : Int) * -63) = -(63 * 2 ^ (-60 : Int)) := by
      have h1 : (2 : ℚ) ^ (-60 : Int) * -63 = -(63 * 2 ^ (-60 : Int)) := by norm_num
      rw [h1, round_neg]
      have := round_eq_of (x := (63 : ℚ) * 2 ^ (-60 : Int)) (-55) (63 * 2 ^ 47) (by norm_num)
        (by norm_num) (by rw [abs_lt]; constructor <;> norm_num)
      rw [this]
      norm_num
    have ha : Float64.round ((203 : ℚ) + -(63 * 2 ^ (-60 : Int))) = 203 := by
      have := round_eq_of (x := (203 : ℚ) + -(63 * 2 ^ (-60 : Int))) 7 (203 * 2 ^ 45)
        (by norm_num) (by norm_num) (by rw [abs_lt]; constructor <;> norm_num)
      rw [this]
      norm_num
    rw [interpolateChannel, Float64.sub, e140, e203, hs, Float64.mul, hm, Float64.add, ha, t203]

/-- The factor of the cell of global index 155 on the default grid of five
lines of 56 cells, and its blue channel: `63 * p` rounds to 35, so the channel
is 168. -/
theorem interpolateChannel_cell_155 :
    Float64.div (Float64.ofInt 155) (Float64.ofInt (5 * 56 - 1))
      = 5003999585967218 * 2 ^ (-53 : Int)
    ∧ interpolateChannel 203 140 (Float64.div (Float64.ofInt 155) (Float64.ofInt (5 * 56 - 1)))
      = 168 := by
  have e155 : Float64.ofInt 155 = 155 := by simpa using ofInt_exact 155 (by norm_num)
  have e279 : Float64.ofInt (5 * 56 - 1) = 279 := by
    simpa using ofInt_exact (5 * 56 - 1) (by norm_num)
  have e203 : Float64.ofInt 203 = 203 := by simpa using ofInt_exact 203 (by norm_num)
  have e140 : Float64.ofInt 140 = 140 := by simpa using ofInt_exact 140 (by norm_num)
  have t168 : Float64.toInt 168 = 168 := by simpa using toInt_intCast 168
  have hp : Float64.div (Float64.ofInt 155) (Float64.ofInt (5 * 56 - 1))
      = 5003999585967218 * 2 ^ (-53 : Int) := by
    rw [Float64.div, e155, e279]
    have := round_eq_of (x := (155 : ℚ) / 279) (-1) 5003999585967218 (by norm_num)
      (by norm_num) (by rw [abs_lt]; constructor <;> norm_num)
    simpa using this
  refine ⟨hp, ?_⟩
  have hs : Float64.round ((140 : ℚ) - 203) = -63 := by
    have := round_intCast (-63) (by norm_num)
    norm_num at this ⊢
    exact this
  have hm : Float64.round (5003999585967218 * 2 ^ (-53 : Int) * -63) = -35 := by
    have h1 : (5003999585967218 * 2 ^ (-53 : Int) * -63 : ℚ)
        = -(5003999585967218 * 2 ^ (-53 : Int) * 63) := by ring
    rw [h1, round_neg]
    have := round_eq_of (x := (5003999585967218 * 2 ^ (-53 : Int) * 63 : ℚ)) 5
      4925812092436480 (by norm_num) (by norm_num)
      (by rw [abs_lt]; constructor <;> norm_num)
    rw [this]
    norm_num
  have ha : Float64.round ((203 : ℚ) + -35) = 168 := by
    have := round_intCast 168 (by norm_num)
    norm_num at this ⊢
    exact this
  rw [hp, interpolateChannel, Float64.sub, e140, e203, hs, Float64.mul, hm, Float64.add, ha, t168]

/-- C11 fails as stated when the channel is taken as the integer part of the
exact value. At `p = 2^-60` the code returns `#ff7ccb` (channels 255, 124, 203),
while the integer parts of `255 + p*(253 - 255)` and `203 + p*(140 - 203)` are
254 and 202. On the default grid of five lines of 56 cells, the factor of the
cell at line 2, column 12 (global index 155) gives the blue channel 168, while
the integer part of `203 + p*(140 - 203)` at that factor is 167. -/
theorem interpolateColor_exact_integer_part_fails :
    (0 : ℚ) ≤ 2 ^ (-60 : Int) ∧ (2 : ℚ) ^ (-60 : Int) ≤ 1
    ∧ interpolateColor "#FF7CCB" "#FDFF8C" (2 ^ (-60 : Int)) = some "#ff7ccb"
    ∧ ⌊(255 : ℚ) + 2 ^ (-60 : Int) * (253 - 255)⌋ = 254
    ∧ ⌊(203 : ℚ) + 2 ^ (-60 : Int) * (140 - 203)⌋ = 202
    ∧ hexDigitValue 'f' = some 15
    ∧ (16 * 15 + 15 : Int) ≠ 254
    ∧ globalCharPos 56 2 12 = 155
    ∧ interpolateChannel 203 140
        (Float64.div (Float64.ofInt 155) (Float64.ofInt (5 * 56 - 1))) = 168
    ∧ ⌊(203 : ℚ) + Float64.div (Float64.ofInt 155) (Float64.ofInt (5 * 56 - 1)) * (140 - 203)⌋
        = 167 := by
  obtain ⟨hr, hg, hb⟩ := interpolateChannel_tiny
  obtain ⟨hp, h168⟩ := interpolateChannel_cell_155
  refine ⟨by norm_num, by norm_num, ?_, ?_, ?_, by decide, by decide, by decide, h168, ?_⟩
  · rw [interpolateColor_gradient_eq, hr, hg, hb]
    decide
  · rw [Int.floor_eq_iff]
    constructor <;> norm_num
  · rw [Int.floor_eq_iff]
    constructor <;> norm_num
  · rw [hp, Int.floor_eq_iff]
    constructor <;> norm_num

/-- C11 at `p = 1/2` and on the grid of a 25-minute session of five lines,
width 56. -/
theorem interpolateColor_gradient_channels_witness :
    (0 : ℚ) ≤ 1 / 2 ∧ (1 / 2 : ℚ) ≤ 1 ∧ (10 : Int) ≤ 56
    ∧ 1 ≤ (sessionWithRemaining (25 * Minute) (20 * Minute) 5).progressLines
    ∧ ((∃ (r g b : Int) (r1 r2 g1 g2 b1 b2 : Char),
      interpolateColor "#FF7CCB" "#FDFF8C" (1 / 2) = some (String.mk ['#', r1, r2, g1, g2, b1, b2])
      ∧ r = Float64.toInt (Float64.add (Float64.ofInt 255)
          (Float64.mul (1 / 2) (Float64.sub (Float64.ofInt 253) (Float64.ofInt 255))))
      ∧ g = Float64.toInt (Float64.add (Float64.ofInt 124)
          (Float64.mul (1 / 2) (Float64.sub (Float64.ofInt 255) (Float64.ofInt 124))))
      ∧ b = Float64.toInt (Float64.add (Float64.ofInt 203)
          (Float64.mul (1 / 2) (Float64.sub (Float64.ofInt 140) (Float64.ofInt 203))))
      ∧ (253 ≤ r ∧ r ≤ 255) ∧ (124 ≤ g ∧ g ≤ 255) ∧ (140 ≤ b ∧ b ≤ 203)
      ∧ (0 ≤ r ∧ r ≤ 255) ∧ (0 ≤ g ∧ g ≤ 255) ∧ (0 ≤ b ∧ b ≤ 255)
      ∧ hexDigitValue r1 = some (r / 16) ∧ hexDigitValue r2 = some (r % 16)
      ∧ hexDigitValue g1 = some (g / 16) ∧ hexDigitValue g2 = some (g % 16)
      ∧ hexDigitValue b1 = some (b / 16) ∧ hexDigitValue b2 = some (b % 16)
      ∧ parseHexColor "#FF7CCB" = some (255, 124, 203)
      ∧ parseHexColor "#FDFF8C" = some (253, 255, 140)
      ∧ interpolateColor "#FF7CCB" "#FDFF8C" 0 = some "#ff7ccb"
      ∧ interpolateColor "#FF7CCB" "#FDFF8C" 1 = some "#fdff8c")
    ∧ ∃ grid : List (List Cell),
      (sessionWithRemaining (25 * Minute) (20 * Minute) 5).getSandTimer 56 = some grid
      ∧ (∀ r c : Nat, (r : Int) < (sessionWithRemaining (25 * Minute) (20 * Minute) 5).progressLines → (c : Int) < 56 →
          ∃ cell : Cell, cellAt grid r c = some cell
            ∧ interpolateColor "#FF7CCB" "#FDFF8C"
                (Float64.div (Float64.ofInt ((r : Int) * 56 + (56 - 1 - (c : Int))))
                  (Float64.ofInt ((sessionWithRemaining (25 * Minute) (20 * Minute) 5).progressLines * 56 - 1))) = some cell.color
            ∧ 0 ≤ Float64.div (Float64.ofInt ((r : Int) * 56 + (56 - 1 - (c : Int))))
                  (Float64.ofInt ((sessionWithRemaining (25 * Minute) (20 * Minute) 5).progressLines * 56 - 1))
            ∧ Float64.div (Float64.ofInt ((r : Int) * 56 + (56 - 1 - (c : Int))))
                  (Float64.ofInt ((sessionWithRemaining (25 * Minute) (20 * Minute) 5).progressLines * 56 - 1)) ≤ 1)
      ∧ (∃ cell : Cell, cellAt grid 0 ((56 : Int).toNat - 1) = some cell ∧ cell.color = "#ff7ccb")
      ∧ (∃ cell : Cell, cellAt grid ((sessionWithRemaining (25 * Minute) (20 * Minute) 5).progressLines.toNat - 1) 0 = some cell
          ∧ cell.color = "#fdff8c")) :=
  ⟨by norm_num, by norm_num, by decide, by decide,
    interpolateColor_gradient_channels (1 / 2) (by norm_num) (by norm_num)
      (sessionWithRemaining (25 * Minute) (20 * Minute) 5) 56 (by decide) (by decide)⟩

end Pom
